import Mathlib

/-!
Verification development for `packages/apollo-language-server/src/config.ts`.

The TypeScript source manipulates untyped JavaScript objects (raw config
documents) via lodash `merge`, object spreads, property accesses and
truthiness tests.  We embed JavaScript values shallowly as the inductive
type `JValue` and translate each source function.  External collaborators
(cosmiconfig search, the dotenv file) are passed in as explicit inputs,
following the contracts stated in the source (`ConfigResult`, a key/value
mapping for `.env`).
-/

/-- A JavaScript value, as far as the config machinery observes it:
strings, numbers, booleans, `undefined`, arrays and plain objects
(ordered association lists, as JS objects have key order). `null` and
functions never occur in the config data flow and are omitted. -/
inductive JValue where
  | str (s : String)
  | num (n : Int)
  | bool (b : Bool)
  | undef
  | arr (xs : List JValue)
  | obj (fs : List (String × JValue))

/-- First-match association lookup inside an object's field list. -/
def lookupField : List (String × JValue) → String → Option JValue
  | [], _ => none
  | (k, v) :: rest, key => if k = key then some v else lookupField rest key

/-- JS property read on a field list: `undefined` when the key is absent. -/
def getFieldL (fs : List (String × JValue)) (key : String) : JValue :=
  (lookupField fs key).getD (.undef)

/-- JS property read `v[key]`: `undefined` on non-objects and missing keys. -/
def getField (v : JValue) (key : String) : JValue :=
  match v with
  | .obj fs => getFieldL fs key
  | _ => (.undef)

/-- Whether a field list defines a key. -/
def hasKey (fs : List (String × JValue)) (key : String) : Bool :=
  (lookupField fs key).isSome

/-- JavaScript truthiness of a value. -/
def truthy : JValue → Bool
  | .str s => !(s = "")
  | .num n => !(n = 0)
  | .bool b => b
  | .undef => false
  | .arr _ => true
  | .obj _ => true

/-- JS property write used by object literals: an existing key keeps its
position and gets the new value, a new key is appended. -/
def setKey (fs : List (String × JValue)) (key : String) (v : JValue) :
    List (String × JValue) :=
  if hasKey fs key then fs.map (fun kv => if kv.1 = key then (key, v) else kv)
  else fs ++ [(key, v)]

/-- JS object spread `{...a, ...b}` on field lists: `b`'s entries are
assigned over `a` one by one (shallow, later keys win, `undefined` values
are assigned too). -/
def spreadFields (a b : List (String × JValue)) : List (String × JValue) :=
  b.foldl (fun acc kv => setKey acc kv.1 kv.2) a

/-- Spreading a value into an object literal: objects contribute their
fields; `undefined` and other primitives used by this code contribute
nothing (the source only ever spreads config objects or `{}`). -/
def spreadJ : JValue → List (String × JValue)
  | .obj fs => fs
  | _ => []

/-- The fields of the merge source whose keys the destination does not
define; lodash assigns these (with their values) onto the result. -/
def newFields (o s : List (String × JValue)) : List (String × JValue) :=
  s.filter (fun kv => !(hasKey o kv.1))

theorem sizeOf_lookupField {fs : List (String × JValue)} {key : String} {v : JValue}
    (h : lookupField fs key = some v) : sizeOf v < sizeOf fs := by
  induction fs with
  | nil => simp [lookupField] at h
  | cons kv rest ih =>
    obtain ⟨k, w⟩ := kv
    by_cases hk : k = key
    · simp [lookupField, hk] at h
      subst h
      simp
      omega
    · simp [lookupField, hk] at h
      have := ih h
      simp
      omega

theorem sizeOf_getFieldL (fs : List (String × JValue)) (key : String) :
    sizeOf (getFieldL fs key) ≤ sizeOf fs := by
  unfold getFieldL
  cases h : lookupField fs key with
  | none =>
    simp only [Option.getD_none]
    cases fs
    · simp
    · simp
      omega
  | some v =>
    simp only [Option.getD_some]
    exact Nat.le_of_lt (sizeOf_lookupField h)

mutual

/-- lodash `merge(d, s)` (the `lodash/fp` variant merges into a clone, so it
is a pure function): source values win; plain objects are merged
recursively key by key; arrays are merged recursively index by index
(lodash: "Array and plain object properties are merged recursively");
`undefined` source values keep the destination value ("source properties
that resolve to `undefined` are skipped if a destination value exists");
all other source values override by assignment. -/
def mergeVals (d s : JValue) : JValue :=
  match s with
  | .str x => .str x
  | .num x => .num x
  | .bool x => .bool x
  | .undef => d
  | .arr xs =>
    match d with
    | .arr ds => .arr (mergeList ds xs)
    | _ => .arr xs
  | .obj fs =>
    match d with
    | .obj os => .obj (updateFields os fs ++ newFields os fs)
    | _ => .obj fs
termination_by sizeOf d + sizeOf s
decreasing_by
  all_goals simp_wf
  all_goals omega

/-- The destination's fields, each merged with the source's value at the
same key (`undefined` when the source lacks the key). -/
def updateFields (o s : List (String × JValue)) : List (String × JValue) :=
  match o with
  | [] => []
  | (k, v) :: rest => (k, mergeVals v (getFieldL s k)) :: updateFields rest s
termination_by sizeOf o + sizeOf s
decreasing_by
  all_goals simp_wf
  all_goals have h := sizeOf_getFieldL s k
  all_goals omega

/-- Index-wise array merge: common positions merge recursively, the longer
array's tail survives. -/
def mergeList (ds xs : List JValue) : List JValue :=
  match ds, xs with
  | ds, [] => ds
  | [], xs => xs
  | d :: ds, x :: xs => mergeVals d x :: mergeList ds xs
termination_by sizeOf ds + sizeOf xs
decreasing_by
  all_goals simp_wf
  all_goals omega

end

/-- `DefaultEngineStatsWindow` from the source (`to: -0, from: -86400`);
`-0` is numerically `0`. -/
def DefaultEngineStatsWindow : JValue :=
  .obj [("to", .num 0), ("from", .num (-86400))]

/-- `DefaultEngineConfig` from the source. -/
def DefaultEngineConfig : JValue :=
  .obj [("endpoint", .str "https://engine-graphql.apollographql.com/api/graphql"),
        ("frontend", .str "https://engine.apollographql.com")]

/-- `DefaultConfigBase` from the source. -/
def DefaultConfigBase : JValue :=
  .obj [("includes", .arr [.str "src/**/*.\x7bts,tsx,js,jsx,graphql\x7d"]),
        ("excludes", .arr [.str "**/node_modules", .str "**/__tests__"])]

/-- `DefaultClientConfig` from the source (`{...DefaultConfigBase, ...}`). -/
def DefaultClientConfig : JValue :=
  .obj [("includes", .arr [.str "src/**/*.\x7bts,tsx,js,jsx,graphql\x7d"]),
        ("excludes", .arr [.str "**/node_modules", .str "**/__tests__"]),
        ("tagName", .str "gql"),
        ("clientOnlyDirectives", .arr [.str "connection", .str "type"]),
        ("clientSchemaDirectives", .arr [.str "client", .str "rest"]),
        ("addTypename", .bool true),
        ("statsWindow", DefaultEngineStatsWindow)]

/-- `DefaultServiceConfig` from the source. -/
def DefaultServiceConfig : JValue :=
  .obj [("includes", .arr [.str "src/**/*.\x7bts,tsx,js,jsx,graphql\x7d"]),
        ("excludes", .arr [.str "**/node_modules", .str "**/__tests__"]),
        ("endpoint", .obj [("url", .str "http://localhost:4000/graphql")])]

/-- Model of JS `String.prototype.split` with a one-character separator,
on the character list. -/
def splitCh (c : Char) : List Char → List (List Char)
  | [] => [[]]
  | x :: xs =>
    match splitCh c xs with
    | [] => [[]]
    | h :: t => if x = c then [] :: h :: t else (x :: h) :: t

/-- JS `s.split(c)` for a one-character separator `c`. -/
def splitStr (c : Char) (s : String) : List String :=
  (splitCh c s.data).map (fun l => String.mk l)

/-- Model of JS `String.prototype.trim`: strip whitespace from both ends. -/
def jsTrim (s : String) : String :=
  String.mk (((s.data.dropWhile Char.isWhitespace).reverse.dropWhile
    Char.isWhitespace).reverse)

/-- `parseServiceSpecificer` from the source:
`const [id, tag] = specifier.split("@").map(x => x.trim())`. -/
def parseServiceSpecificer (specifier : String) : String × Option String :=
  match (splitStr '@' specifier).map jsTrim with
  | [] => ("", none)
  | [a] => (a, none)
  | a :: b :: _ => (a, some b)

/-- A JS string-valued field read as an optional name (`undefined` and
non-strings give no name, as in the typed source accesses `.name`). -/
def jToName : JValue → Option String
  | .str s => some s
  | _ => none

/-- `getServiceName` from the source: a truthy `service` block's `name`
wins, else a truthy `client` block: a string `service` reference is parsed
and its id returned, otherwise `client.service && client.service.name`. -/
def getServiceName (config : JValue) : Option String :=
  if truthy (getField config "service") then
    jToName (getField (getField config "service") "name")
  else if truthy (getField config "client") then
    match getField (getField config "client") "service" with
    | .str s => some (parseServiceSpecificer s).1
    | cs => if truthy cs then jToName (getField cs "name") else none
  else none

/-- `getServiceFromKey` from the source: on a truthy key,
`const [ty, service] = key.split(":")`, returning `service` only when
`ty === "service"` (case-sensitive), else `undefined`. -/
def getServiceFromKey (key : Option String) : Option String :=
  match key with
  | some k =>
    if k = "" then none
    else
      match splitStr ':' k with
      | [] => none
      | ty :: rest => if ty = "service" then rest.head? else none
  | none => none

/-- Whether the character list `pat` occurs as a contiguous run at the
front of `s`. -/
def startsWithL : List Char → List Char → Bool
  | _, [] => true
  | [], _ :: _ => false
  | a :: as, b :: bs => a = b && startsWithL as bs

/-- Substring occurrence on character lists. -/
def includesL (s pat : List Char) : Bool :=
  match s with
  | [] => startsWithL [] pat
  | _ :: rest => startsWithL s pat || includesL rest pat

/-- Model of JS `String.prototype.includes`. -/
def jsIncludes (s pat : String) : Bool :=
  includesL s.data pat.data

/-- Drop reversed characters up to and including the first `/`;
`none` when the path has no separator. -/
def dropToSlash : List Char → Option (List Char)
  | [] => none
  | c :: rest => if c = '/' then some rest else dropToSlash rest

/-- Model of Node `path.dirname` for paths without a trailing separator:
everything before the last `/`; `"."` when there is none, `"/"` for a
top-level entry. -/
def dirname (p : String) : String :=
  match dropToSlash p.data.reverse with
  | none => "."
  | some [] => "/"
  | some rest => String.mk rest.reverse

/-- Model of Node `path.resolve(cwd, p)` for the paths this code builds:
an absolute path stands, a relative one is joined to the base. -/
def resolvePath (cwd p : String) : String :=
  match p.data with
  | '/' :: _ => p
  | _ => cwd ++ "/" ++ p

/-- The `ApolloConfig` class state.  `configURI` is modelled by the
file-system path the URI wraps; `_tag` is the private backing field of the
`tag` accessor pair. -/
structure ApolloConfig where
  rawConfig : JValue
  configURI : Option String
  isClient : Bool
  isService : Bool
  engine : JValue
  name : Option String
  client : JValue
  service : JValue
  tagStore : Option String

/-- The `ApolloConfig` constructor: derives the flags, views and name from
the raw config; the `_tag` backing field starts unset. -/
def ApolloConfig.ofRaw (rawConfig : JValue) (configURI : Option String) : ApolloConfig :=
  { rawConfig := rawConfig
    configURI := configURI
    isService := truthy (getField rawConfig "service")
    isClient := truthy (getField rawConfig "client")
    engine := getField rawConfig "engine"
    name := getServiceName rawConfig
    client := getField rawConfig "client"
    service := getField rawConfig "service"
    tagStore := none }

/-- The tag derived from a client view: a string `service` reference with
a truthy parsed tag yields that tag, else `"current"`. -/
def tagFromClient (client : JValue) : String :=
  match getField client "service" with
  | .str s =>
    match (parseServiceSpecificer s).2 with
    | some t => if t = "" then "current" else t
    | none => "current"
  | _ => "current"

/-- The `tag` getter: a truthy `_tag` is returned as is; otherwise the tag
is derived from the client view on every read (the getter stores
nothing). -/
def ApolloConfig.tag (c : ApolloConfig) : String :=
  match c.tagStore with
  | some t =>
    if t = "" then (if truthy c.client then tagFromClient c.client else "current")
    else t
  | none => if truthy c.client then tagFromClient c.client else "current"

/-- The `tag` setter: stores the assigned tag in the backing field. -/
def ApolloConfig.setTag (c : ApolloConfig) (t : String) : ApolloConfig :=
  { c with tagStore := some t }

/-- Reading the `tag` property as a state transition: the getter computes
the value and leaves the object unchanged (it has no caching write). -/
def ApolloConfig.tagRead (c : ApolloConfig) : String × ApolloConfig :=
  (c.tag, c)

/-- The `configDirURI` getter: when the location's path contains the
substring `".js"`, the parent directory of that path, else the location
itself (also when no location is set). -/
def ApolloConfig.configDirURI (c : ApolloConfig) : Option String :=
  match c.configURI with
  | some uri => if jsIncludes uri ".js" then some (dirname uri) else some uri
  | none => none

/-- `setDefaults({client, engine, service})`: lodash-merge the partial
over the current raw config, refresh the `client`/`service` views, and
replace `engine` only when the partial's `engine` is truthy. -/
def ApolloConfig.setDefaults (c : ApolloConfig)
    (client engine service : JValue) : ApolloConfig :=
  let config := mergeVals c.rawConfig
    (.obj [("client", client), ("engine", engine), ("service", service)])
  { c with
    rawConfig := config
    client := getField config "client"
    service := getField config "service"
    engine := if truthy engine then getField config "engine" else c.engine }

/-- The project type the CLI may pass (`"service" | "client"`). -/
inductive ProjectType where
  | client
  | service
deriving DecidableEq

/-- `LoadConfigSettings` from the source (the search-only fields
`configPath`/`configFileName` also locate the `.env` file / search
places, which are external collaborators here). -/
structure LoadConfigSettings where
  configPath : Option String := none
  configFileName : Option String := none
  requireConfig : Bool := false
  name : Option String := none
  type : Option ProjectType := none

/-- A successful `ConfigResult` from the cosmiconfig search: the raw
document, its path, and cosmiconfig's empty-file flag. -/
structure ConfigResult where
  config : JValue
  filepath : String
  isEmpty : Bool

/-- The fatal errors `loadConfig` throws, with the data their messages
carry. -/
inductive ConfigError where
  | noConfigFound
  | unresolvableType
  | emptyConfig (filepath : String)
deriving DecidableEq

/-- JS `a || b` on optional strings (an empty string is falsy). -/
def jsOr (a b : Option String) : Option String :=
  match a with
  | some s => if s = "" then b else some s
  | none => b

/-- JS `a || b` with a string fallback. -/
def jsOrS (a : Option String) (b : String) : String :=
  match a with
  | some s => if s = "" then b else s
  | none => b

/-- JS truthiness of an optional string. -/
def optTruthy : Option String → Bool
  | some s => !(s = "")
  | none => false

/-- An optional string written into an object literal
(`service: resolvedName`): `undefined` when absent. -/
def optToJ : Option String → JValue
  | some s => .str s
  | none => (.undef)

/-- First-match lookup in the parsed `.env` key/value mapping. -/
def lookupEnv : List (String × String) → String → Option String
  | [], _ => none
  | (k, v) :: rest, key => if k = key then some v else lookupEnv rest key

/-- The `ENGINE_API_KEY` the source reads from an existing `.env` file,
`none` when the file is missing or the value is falsy. -/
def engineKeyOf (dotenv : Option (List (String × String))) : Option String :=
  match dotenv with
  | some env =>
    match lookupEnv env "ENGINE_API_KEY" with
    | some k => if k = "" then none else some k
    | none => none
  | none => none

/-- The `engineConfig` object the source builds: `{engine: {apiKey}}` when
the key was found, else the initial `{}`. -/
def engineConfigOf (engineKey : Option String) : JValue :=
  match engineKey with
  | some k => .obj [("engine", .obj [("apiKey", .str k)])]
  | none => .obj []

/-- Lines 321-343 of the source: resolve the project type and thread the
resolved name through the client-string-specifier overrides. -/
def resolveTypeAndName : Option ProjectType → Option String → Option ConfigResult →
    Except ConfigError (ProjectType × Option String)
  | some t, rn, some r =>
    if truthy (getField r.config "client") then
      match getField (getField r.config "client") "service" with
      | .str s => .ok (t, some s)
      | _ => .ok (t, rn)
    else .ok (t, rn)
  | some t, rn, none => .ok (t, rn)
  | none, rn, some r =>
    if truthy (getField r.config "client") then
      .ok (.client,
        match getField (getField r.config "client") "service" with
        | .str s => some s
        | _ => rn)
    else if truthy (getField r.config "service") then .ok (.service, rn)
    else .error .unresolvableType
  | none, _, none => .error .unresolvableType

/-- Lines 348-371 of the source: synthesize the raw document when none was
loaded or a name was resolved, seeding the block of the resolved type with
`DefaultConfigBase`, the loaded block's fields, and the resolved name
(object spreads, so shallow and assigning even `undefined`). -/
def synthesizeConfig (rt : ProjectType) (rn : Option String)
    (prev : Option JValue) : JValue :=
  let base := match prev with
    | some cfg => spreadJ cfg
    | none => []
  match rt with
  | .client =>
    .obj (setKey base "client" (.obj (setKey
      (spreadFields (spreadJ DefaultConfigBase)
        (spreadJ (match prev with
          | some cfg => getField cfg "client"
          | none => .undef)))
      "service" (optToJ rn))))
  | .service =>
    .obj (setKey base "service" (.obj (setKey
      (spreadFields (spreadJ DefaultConfigBase)
        (spreadJ (match prev with
          | some cfg => getField cfg "service"
          | none => .undef)))
      "name" (optToJ rn))))

/-- Lines 381-386 of the source: layer the built-in defaults (and the
secret-derived `engineConfig`) under the document with lodash merges, in
the source's order. -/
def applyDefaults (engineConfig config : JValue) : JValue :=
  let c1 := if truthy (getField config "client") then
    mergeVals (.obj [("client", DefaultClientConfig)]) config else config
  let c2 := if truthy (getField c1 "service") then
    mergeVals (.obj [("service", DefaultServiceConfig)]) c1 else c1
  let c3 := if truthy engineConfig then mergeVals engineConfig c2 else c2
  mergeVals (.obj [("engine", DefaultEngineConfig)]) c3

/-- `loadConfig` from the source.  The cosmiconfig search result and the
parsed `.env` file are the external collaborators, passed as inputs;
`cwd` stands for `process.cwd()`. -/
def loadConfig (settings : LoadConfigSettings) (searchResult : Option ConfigResult)
    (dotenv : Option (List (String × String))) (cwd : String) :
    Except ConfigError ApolloConfig :=
  if settings.requireConfig && searchResult.isNone then .error .noConfigFound
  else
    let engineKey := engineKeyOf dotenv
    let engineConfig := engineConfigOf engineKey
    let nameFromKey := engineKey.bind (fun k => getServiceFromKey (some k))
    let resolvedName0 := jsOr settings.name nameFromKey
    match resolveTypeAndName settings.type resolvedName0 searchResult with
    | .error e => .error e
    | .ok (resolvedType, resolvedName) =>
      let loaded2 : ConfigResult :=
        match searchResult with
        | none =>
          { config := synthesizeConfig resolvedType resolvedName none
            filepath := jsOrS settings.configPath cwd
            isEmpty := false }
        | some r =>
          if optTruthy resolvedName then
            { config := synthesizeConfig resolvedType resolvedName (some r.config)
              filepath := jsOrS settings.configPath cwd
              isEmpty := false }
          else r
      if loaded2.isEmpty then .error (.emptyConfig loaded2.filepath)
      else .ok (ApolloConfig.ofRaw (applyDefaults engineConfig loaded2.config)
        (some (resolvePath cwd loaded2.filepath)))

/-- One step of a path into a JS value: a field of an object or an index
of an array. -/
inductive JStep where
  | fld (k : String)
  | idx (i : Nat)

/-- Follow a path into a value; `none` when a step does not apply. -/
def getPath : JValue → List JStep → Option JValue
  | v, [] => some v
  | .obj fs, .fld k :: p =>
    match lookupField fs k with
    | some w => getPath w p
    | none => none
  | .arr xs, .idx i :: p =>
    match xs[i]? with
    | some w => getPath w p
    | none => none
  | _, _ :: _ => none

/-- A scalar (leaf) value: a string, number or boolean. -/
def isScalar : JValue → Bool
  | .str _ => true
  | .num _ => true
  | .bool _ => true
  | _ => false

/-- Read a JS array of strings back out, for stating concrete results. -/
def strElems : List JValue → Option (List String)
  | [] => some []
  | .str s :: rest => (strElems rest).map (fun l => s :: l)
  | _ :: _ => none

/-- A value viewed as a list of strings, when it is such an array. -/
def asStrList : JValue → Option (List String)
  | .arr xs => strElems xs
  | _ => none

/-- Remove every entry with the given key from a field list. -/
def rmKey (key : String) (fs : List (String × JValue)) : List (String × JValue) :=
  fs.filter (fun kv => !(kv.1 = key))

/-- Derived shape of the client-defaults pass of `applyDefaults` on an
object document (proved equal to it below): a truthy `client` field is
merged with `DefaultClientConfig` and moved to the front. -/
def clPart (fs : List (String × JValue)) : List (String × JValue) :=
  if truthy (getFieldL fs "client") then
    ("client", mergeVals DefaultClientConfig (getFieldL fs "client")) :: rmKey "client" fs
  else fs

/-- Derived shape of the service-defaults pass of `applyDefaults` on an
object document (proved equal to it below). -/
def svPart (fs : List (String × JValue)) : List (String × JValue) :=
  if truthy (getFieldL fs "service") then
    ("service", mergeVals DefaultServiceConfig (getFieldL fs "service")) :: rmKey "service" fs
  else fs

/-- Derived shape of the engine passes of `applyDefaults`: the secret
`apiKey` object (when a key was read) merged over the document's engine
value, with `DefaultEngineConfig` layered underneath. -/
def engineMerged (sk : Option String) (e : JValue) : JValue :=
  mergeVals DefaultEngineConfig
    (match sk with
     | some k => mergeVals (.obj [("apiKey", .str k)]) e
     | none => e)

/-- Whether `loadConfig` returned a config (observation helper). -/
def resultOk : Except ConfigError ApolloConfig → Bool
  | .ok _ => true
  | .error _ => false

/-- The resolved config's `name`, when `loadConfig` succeeded. -/
def resultName : Except ConfigError ApolloConfig → Option String
  | .ok c => c.name
  | .error _ => none

/-- The resolved config's `isClient` flag, when `loadConfig` succeeded. -/
def resultIsClient : Except ConfigError ApolloConfig → Option Bool
  | .ok c => some c.isClient
  | .error _ => none

/-- The resolved config's `engine.apiKey`, when `loadConfig` succeeded
and the key is a string. -/
def resultEngineApiKey : Except ConfigError ApolloConfig → Option String
  | .ok c => jToName (getField c.engine "apiKey")
  | .error _ => none

/-- The resolved config's `engine` value, when `loadConfig` succeeded. -/
def resultEngine : Except ConfigError ApolloConfig → Option JValue
  | .ok c => some c.engine
  | .error _ => none

/-- The resolved config's raw document, when `loadConfig` succeeded. -/
def resultRaw : Except ConfigError ApolloConfig → Option JValue
  | .ok c => some c.rawConfig
  | .error _ => none

/-- Keys of an object's field list are pairwise distinct. -/
def nodupKeys : List (String × JValue) → Bool
  | [] => true
  | (k, _) :: rest => !(hasKey rest k) && nodupKeys rest

/-- Well-formed JS data: every object level has pairwise distinct keys
(true of every value produced by a JS runtime). -/
inductive WfJ : JValue → Prop where
  | str (s : String) : WfJ (.str s)
  | num (n : Int) : WfJ (.num n)
  | bool (b : Bool) : WfJ (.bool b)
  | undef : WfJ .undef
  | arr (xs : List JValue) (h : ∀ x ∈ xs, WfJ x) : WfJ (.arr xs)
  | obj (fs : List (String × JValue)) (hk : nodupKeys fs = true)
      (h : ∀ kv ∈ fs, WfJ kv.2) : WfJ (.obj fs)

/-! ### Basic rewriting lemmas for the merge -/

@[simp] theorem mergeVals_str (d : JValue) (x : String) :
    mergeVals d (.str x) = .str x := by
  rw [mergeVals.eq_def]

@[simp] theorem mergeVals_num (d : JValue) (x : Int) :
    mergeVals d (.num x) = .num x := by
  rw [mergeVals.eq_def]

@[simp] theorem mergeVals_bool (d : JValue) (x : Bool) :
    mergeVals d (.bool x) = .bool x := by
  rw [mergeVals.eq_def]

@[simp] theorem mergeVals_undef (d : JValue) : mergeVals d .undef = d := by
  rw [mergeVals.eq_def]

@[simp] theorem mergeVals_arr_arr (ds xs : List JValue) :
    mergeVals (.arr ds) (.arr xs) = .arr (mergeList ds xs) := by
  rw [mergeVals.eq_def]

theorem mergeVals_obj_obj (os fs : List (String × JValue)) :
    mergeVals (.obj os) (.obj fs) = .obj (updateFields os fs ++ newFields os fs) := by
  rw [mergeVals.eq_def]

@[simp] theorem mergeVals_str_arr (t : String) (xs : List JValue) :
    mergeVals (.str t) (.arr xs) = .arr xs := by rw [mergeVals.eq_def]

@[simp] theorem mergeVals_num_arr (t : Int) (xs : List JValue) :
    mergeVals (.num t) (.arr xs) = .arr xs := by rw [mergeVals.eq_def]

@[simp] theorem mergeVals_bool_arr (t : Bool) (xs : List JValue) :
    mergeVals (.bool t) (.arr xs) = .arr xs := by rw [mergeVals.eq_def]

@[simp] theorem mergeVals_undef_arr (xs : List JValue) :
    mergeVals .undef (.arr xs) = .arr xs := by rw [mergeVals.eq_def]

@[simp] theorem mergeVals_obj_arr (os : List (String × JValue)) (xs : List JValue) :
    mergeVals (.obj os) (.arr xs) = .arr xs := by rw [mergeVals.eq_def]

@[simp] theorem mergeVals_str_obj (t : String) (fs : List (String × JValue)) :
    mergeVals (.str t) (.obj fs) = .obj fs := by rw [mergeVals.eq_def]

@[simp] theorem mergeVals_num_obj (t : Int) (fs : List (String × JValue)) :
    mergeVals (.num t) (.obj fs) = .obj fs := by rw [mergeVals.eq_def]

@[simp] theorem mergeVals_bool_obj (t : Bool) (fs : List (String × JValue)) :
    mergeVals (.bool t) (.obj fs) = .obj fs := by rw [mergeVals.eq_def]

@[simp] theorem mergeVals_undef_obj (fs : List (String × JValue)) :
    mergeVals .undef (.obj fs) = .obj fs := by rw [mergeVals.eq_def]

@[simp] theorem mergeVals_arr_obj (ds : List JValue) (fs : List (String × JValue)) :
    mergeVals (.arr ds) (.obj fs) = .obj fs := by rw [mergeVals.eq_def]

@[simp] theorem updateFields_nil (s : List (String × JValue)) :
    updateFields [] s = [] := by rw [updateFields.eq_def]

@[simp] theorem updateFields_cons (k : String) (v : JValue)
    (rest s : List (String × JValue)) :
    updateFields ((k, v) :: rest) s =
      (k, mergeVals v (getFieldL s k)) :: updateFields rest s := by
  rw [updateFields.eq_def]

@[simp] theorem mergeList_nil_right (ds : List JValue) : mergeList ds [] = ds := by
  rw [mergeList.eq_def]
  cases ds <;> rfl

@[simp] theorem mergeList_nil_left (xs : List JValue) : mergeList [] xs = xs := by
  rw [mergeList.eq_def]
  cases xs <;> rfl

@[simp] theorem mergeList_cons_cons (d x : JValue) (ds xs : List JValue) :
    mergeList (d :: ds) (x :: xs) = mergeVals d x :: mergeList ds xs := by
  rw [mergeList.eq_def]

@[simp] theorem lookupField_nil (key : String) : lookupField [] key = none := rfl

@[simp] theorem lookupField_cons (k : String) (v : JValue)
    (rest : List (String × JValue)) (key : String) :
    lookupField ((k, v) :: rest) key =
      if k = key then some v else lookupField rest key := rfl

theorem getFieldL_eq (fs : List (String × JValue)) (key : String) :
    getFieldL fs key = (lookupField fs key).getD .undef := rfl

@[simp] theorem getFieldL_nil (key : String) : getFieldL [] key = .undef := rfl

@[simp] theorem getFieldL_cons (k : String) (v : JValue)
    (rest : List (String × JValue)) (key : String) :
    getFieldL ((k, v) :: rest) key =
      if k = key then v else getFieldL rest key := by
  simp only [getFieldL_eq, lookupField_cons]
  split <;> rfl

@[simp] theorem getField_obj (fs : List (String × JValue)) (key : String) :
    getField (.obj fs) key = getFieldL fs key := rfl

@[simp] theorem getField_undef (key : String) : getField .undef key = .undef := rfl

@[simp] theorem getField_str (s key : String) : getField (.str s) key = .undef := rfl

@[simp] theorem getField_num (n : Int) (key : String) : getField (.num n) key = .undef := rfl

@[simp] theorem getField_bool (b : Bool) (key : String) :
    getField (.bool b) key = .undef := rfl

@[simp] theorem getField_arr (xs : List JValue) (key : String) :
    getField (.arr xs) key = .undef := rfl

@[simp] theorem hasKey_nil (key : String) : hasKey [] key = false := rfl

@[simp] theorem hasKey_cons (k : String) (v : JValue)
    (rest : List (String × JValue)) (key : String) :
    hasKey ((k, v) :: rest) key = (k = key || hasKey rest key) := by
  simp only [hasKey, lookupField_cons]
  split
  · simp [*]
  · simp [*]

/-! ### Lookup characterization of merged objects -/

theorem lookupField_append (a b : List (String × JValue)) (key : String) :
    lookupField (a ++ b) key =
      match lookupField a key with
      | some v => some v
      | none => lookupField b key := by
  induction a with
  | nil => simp
  | cons kv rest ih =>
    obtain ⟨k, v⟩ := kv
    by_cases hk : k = key <;> simp [hk, ih]

theorem lookupField_updateFields (o s : List (String × JValue)) (key : String) :
    lookupField (updateFields o s) key =
      (lookupField o key).map (fun v => mergeVals v (getFieldL s key)) := by
  induction o with
  | nil => simp
  | cons kv rest ih =>
    obtain ⟨k, v⟩ := kv
    by_cases hk : k = key
    · subst hk
      simp
    · simp [hk, ih]

theorem hasKey_updateFields (o s : List (String × JValue)) (key : String) :
    hasKey (updateFields o s) key = hasKey o key := by
  simp only [hasKey, lookupField_updateFields]
  cases lookupField o key <;> simp

theorem lookupField_newFields_of_not (o s : List (String × JValue)) (key : String)
    (h : hasKey o key = false) :
    lookupField (newFields o s) key = lookupField s key := by
  unfold newFields
  induction s with
  | nil => simp
  | cons kv rest ih =>
    obtain ⟨k, v⟩ := kv
    by_cases hk : k = key
    · subst hk
      simp [h, ih]
    · by_cases hko : hasKey o k <;> simp [hko, hk, ih]

theorem lookupField_newFields_of_has (o s : List (String × JValue)) (key : String)
    (h : hasKey o key = true) :
    lookupField (newFields o s) key = none := by
  unfold newFields
  induction s with
  | nil => simp
  | cons kv rest ih =>
    obtain ⟨k, v⟩ := kv
    by_cases hk : k = key
    · subst hk
      simp [h, ih]
    · by_cases hko : hasKey o k <;> simp [hko, hk, ih]

/-- The key-wise description of a lodash object merge: keys of the
destination merge recursively with the source's value at the same key,
keys only in the source keep the source value. -/
theorem lookupField_merged (o s : List (String × JValue)) (key : String) :
    lookupField (updateFields o s ++ newFields o s) key =
      match lookupField o key with
      | some v => some (mergeVals v (getFieldL s key))
      | none => lookupField s key := by
  rw [lookupField_append, lookupField_updateFields]
  cases ho : lookupField o key with
  | some v => simp
  | none =>
    simp only [Option.map_none]
    exact lookupField_newFields_of_not o s key (by simp [hasKey, ho])

theorem getFieldL_merged (o s : List (String × JValue)) (key : String) :
    getFieldL (updateFields o s ++ newFields o s) key =
      match lookupField o key with
      | some v => mergeVals v (getFieldL s key)
      | none => getFieldL s key := by
  rw [getFieldL_eq, lookupField_merged]
  cases lookupField o key <;> simp [getFieldL_eq]

/-! ### Index-wise description of the array merge -/

theorem length_mergeList (ds xs : List JValue) :
    (mergeList ds xs).length = max ds.length xs.length := by
  induction ds generalizing xs with
  | nil => cases xs <;> simp
  | cons d ds ih =>
    cases xs with
    | nil => simp
    | cons x xs =>
      simp [ih]
      omega

theorem get?_mergeList (ds xs : List JValue) (i : Nat) :
    (mergeList ds xs)[i]? =
      match ds[i]?, xs[i]? with
      | some d, some x => some (mergeVals d x)
      | some d, none => some d
      | none, some x => some x
      | none, none => none := by
  induction ds generalizing xs i with
  | nil =>
    cases xs with
    | nil => simp
    | cons x xs =>
      cases i with
      | zero => simp
      | succ n => cases h : xs[n]? <;> simp [h]
  | cons d ds ih =>
    cases xs with
    | nil =>
      cases i with
      | zero => simp
      | succ n => cases h : ds[n]? <;> simp [h]
    | cons x xs => cases i <;> simp [ih]

/-! ### Algebra of key removal and of singleton-destination merges -/

@[simp] theorem rmKey_nil (key : String) : rmKey key [] = [] := rfl

theorem rmKey_cons (key k : String) (v : JValue) (fs : List (String × JValue)) :
    rmKey key ((k, v) :: fs) =
      if k = key then rmKey key fs else (k, v) :: rmKey key fs := by
  unfold rmKey
  by_cases hk : k = key <;> simp [hk]

@[simp] theorem rmKey_cons_self (key : String) (v : JValue)
    (fs : List (String × JValue)) :
    rmKey key ((key, v) :: fs) = rmKey key fs := by
  simp [rmKey_cons]

@[simp] theorem rmKey_cons_ne (key k : String) (v : JValue)
    (fs : List (String × JValue)) (h : ¬k = key) :
    rmKey key ((k, v) :: fs) = (k, v) :: rmKey key fs := by
  simp [rmKey_cons, h]

theorem rmKey_rmKey (key : String) (fs : List (String × JValue)) :
    rmKey key (rmKey key fs) = rmKey key fs := by
  induction fs with
  | nil => rfl
  | cons kv rest ih =>
    obtain ⟨k, v⟩ := kv
    by_cases hk : k = key <;> simp [rmKey_cons, hk, ih]

theorem rmKey_comm (k1 k2 : String) (fs : List (String × JValue)) :
    rmKey k1 (rmKey k2 fs) = rmKey k2 (rmKey k1 fs) := by
  induction fs with
  | nil => rfl
  | cons kv rest ih =>
    obtain ⟨k, v⟩ := kv
    by_cases h1 : k = k1
    · by_cases h2 : k = k2
      · subst h1
        subst h2
        simp [rmKey_cons, ih]
      · subst h1
        simp [rmKey_cons, h2, ih]
    · by_cases h2 : k = k2
      · subst h2
        simp [rmKey_cons, h1, ih]
      · simp [rmKey_cons, h1, h2, ih]

theorem lookupField_rmKey_ne (key k : String) (fs : List (String × JValue))
    (h : ¬key = k) : lookupField (rmKey k fs) key = lookupField fs key := by
  induction fs with
  | nil => rfl
  | cons kv rest ih =>
    obtain ⟨k0, v⟩ := kv
    by_cases hk0 : k0 = k
    · subst hk0
      have : ¬k0 = key := fun hc => h (hc ▸ rfl)
      simp [rmKey_cons, this, ih]
    · by_cases hkey : k0 = key <;> simp [rmKey_cons, hk0, hkey, h, ih]

theorem getFieldL_rmKey_ne (key k : String) (fs : List (String × JValue))
    (h : ¬key = k) : getFieldL (rmKey k fs) key = getFieldL fs key := by
  simp [getFieldL_eq, lookupField_rmKey_ne key k fs h]

@[simp] theorem lookupField_rmKey_self (k : String) (fs : List (String × JValue)) :
    lookupField (rmKey k fs) k = none := by
  induction fs with
  | nil => rfl
  | cons kv rest ih =>
    obtain ⟨k0, v⟩ := kv
    by_cases hk0 : k0 = k <;> simp [rmKey_cons, hk0, ih]

@[simp] theorem newFields_nil (o : List (String × JValue)) : newFields o [] = [] := rfl

theorem newFields_cons (o : List (String × JValue)) (k : String) (v : JValue)
    (s : List (String × JValue)) :
    newFields o ((k, v) :: s) =
      if hasKey o k then newFields o s else (k, v) :: newFields o s := by
  unfold newFields
  by_cases h : hasKey o k <;> simp [h]

/-- Merging a one-key object underneath: the key comes first with the
merged value, the document's other fields follow unchanged. -/
theorem mergeVals_singleton (k : String) (d : JValue) (fs : List (String × JValue)) :
    mergeVals (.obj [(k, d)]) (.obj fs) =
      .obj ((k, mergeVals d (getFieldL fs k)) :: rmKey k fs) := by
  rw [mergeVals_obj_obj]
  simp only [updateFields_cons, updateFields_nil, List.singleton_append]
  congr 2
  unfold newFields rmKey
  apply List.filter_congr
  intro kv _
  by_cases hk : kv.1 = k
  · simp [hasKey_cons, hk]
  · have hk2 : ¬k = kv.1 := fun hc => hk hc.symm
    simp [hasKey_cons, hk, hk2]

/-- Merging the initial empty `engineConfig` object underneath a document
is the identity. -/
theorem mergeVals_emptyObj (fs : List (String × JValue)) :
    mergeVals (.obj []) (.obj fs) = .obj fs := by
  rw [mergeVals_obj_obj]
  simp only [updateFields_nil, List.nil_append]
  congr 1
  unfold newFields
  induction fs with
  | nil => rfl
  | cons kv rest ih => simp [ih]

/-- A truthy source stays truthy after any lodash merge. -/
theorem truthy_mergeVals (d s : JValue) (h : truthy s = true) :
    truthy (mergeVals d s) = true := by
  cases s with
  | str x => simpa using h
  | num x => simpa using h
  | bool b => simpa using h
  | undef => simp [truthy] at h
  | arr xs => cases d <;> simp [truthy]
  | obj fs => cases d <;> simp [truthy, mergeVals_obj_obj]

/-! ### Scalar paths of the merge source survive the merge -/

@[simp] theorem getPath_nil (v : JValue) : getPath v [] = some v := by
  cases v <;> rfl

theorem getPath_obj_fld (fs : List (String × JValue)) (k : String) (p : List JStep) :
    getPath (.obj fs) (.fld k :: p) =
      match lookupField fs k with
      | some w => getPath w p
      | none => none := rfl

theorem getPath_arr_idx (xs : List JValue) (i : Nat) (p : List JStep) :
    getPath (.arr xs) (.idx i :: p) =
      match xs[i]? with
      | some w => getPath w p
      | none => none := rfl

theorem getPath_mergeVals_scalar :
    ∀ (p : List JStep) (d s v : JValue), getPath s p = some v → isScalar v = true →
      getPath (mergeVals d s) p = some v := by
  intro p
  induction p with
  | nil =>
    intro d s v h hs
    rw [getPath_nil] at h
    injection h with h
    subst h
    cases s with
    | str x => simp
    | num x => simp
    | bool b => simp
    | undef => simp [isScalar] at hs
    | arr xs => simp [isScalar] at hs
    | obj fs => simp [isScalar] at hs
  | cons step p ih =>
    intro d s v h hs
    cases s with
    | str x => cases step <;> simp [getPath] at h
    | num x => cases step <;> simp [getPath] at h
    | bool b => cases step <;> simp [getPath] at h
    | undef => cases step <;> simp [getPath] at h
    | arr xs =>
      cases step with
      | fld k => simp [getPath] at h
      | idx i =>
        rw [getPath_arr_idx] at h
        cases hx : xs[i]? with
        | none => rw [hx] at h; simp at h
        | some w =>
          rw [hx] at h
          cases d with
          | arr ds =>
            rw [mergeVals_arr_arr, getPath_arr_idx, get?_mergeList, hx]
            cases hd : ds[i]? with
            | none => simpa using h
            | some dv => simpa using ih dv w v h hs
          | str t => rw [mergeVals_str_arr, getPath_arr_idx, hx]; exact h
          | num t => rw [mergeVals_num_arr, getPath_arr_idx, hx]; exact h
          | bool t => rw [mergeVals_bool_arr, getPath_arr_idx, hx]; exact h
          | undef => rw [mergeVals_undef_arr, getPath_arr_idx, hx]; exact h
          | obj os => rw [mergeVals_obj_arr, getPath_arr_idx, hx]; exact h
    | obj fs =>
      cases step with
      | idx i => simp [getPath] at h
      | fld k =>
        rw [getPath_obj_fld] at h
        cases hx : lookupField fs k with
        | none => rw [hx] at h; simp at h
        | some w =>
          rw [hx] at h
          cases d with
          | obj os =>
            rw [mergeVals_obj_obj, getPath_obj_fld, lookupField_merged, hx]
            cases hd : lookupField os k with
            | none => simpa using h
            | some dv =>
              have hfw : getFieldL fs k = w := by simp [getFieldL_eq, hx]
              simp only [hfw]
              simpa using ih dv w v h hs
          | str t => rw [mergeVals_str_obj, getPath_obj_fld, hx]; exact h
          | num t => rw [mergeVals_num_obj, getPath_obj_fld, hx]; exact h
          | bool t => rw [mergeVals_bool_obj, getPath_obj_fld, hx]; exact h
          | undef => rw [mergeVals_undef_obj, getPath_obj_fld, hx]; exact h
          | arr ds => rw [mergeVals_arr_obj, getPath_obj_fld, hx]; exact h

theorem getPath_if_mergeVals_scalar (c : Prop) [Decidable c] (d s v : JValue)
    (p : List JStep) (h : getPath s p = some v) (hs : isScalar v = true) :
    getPath (if c then mergeVals d s else s) p = some v := by
  by_cases hc : c
  · rw [if_pos hc]
    exact getPath_mergeVals_scalar p d s v h hs
  · rw [if_neg hc]
    exact h

/-- Scalar paths of the document survive the whole defaults pipeline. -/
theorem getPath_applyDefaults_scalar (engineConfig config : JValue)
    (p : List JStep) (v : JValue) (h : getPath config p = some v)
    (hs : isScalar v = true) :
    getPath (applyDefaults engineConfig config) p = some v := by
  unfold applyDefaults
  exact getPath_mergeVals_scalar p _ _ v
    (getPath_if_mergeVals_scalar _ _ _ v p
      (getPath_if_mergeVals_scalar _ _ _ v p
        (getPath_if_mergeVals_scalar _ _ _ v p h hs) hs) hs) hs

/-! ### Merging the same defaults twice: absorption -/

theorem hasKey_of_mem {fs : List (String × JValue)} {kv : String × JValue}
    (h : kv ∈ fs) : hasKey fs kv.1 = true := by
  induction fs with
  | nil => simp at h
  | cons kv0 rest ih =>
    obtain ⟨k0, v0⟩ := kv0
    rw [List.mem_cons] at h
    rcases h with h | h
    · subst h
      simp [hasKey_cons]
    · by_cases hk : k0 = kv.1 <;> simp [hasKey_cons, hk, ih h]

theorem lookup_of_mem_nodup {fs : List (String × JValue)} {k : String} {v : JValue}
    (hnd : nodupKeys fs = true) (h : (k, v) ∈ fs) : lookupField fs k = some v := by
  induction fs with
  | nil => simp at h
  | cons kv0 rest ih =>
    obtain ⟨k0, v0⟩ := kv0
    simp only [nodupKeys, Bool.and_eq_true, Bool.not_eq_true'] at hnd
    rw [List.mem_cons] at h
    rcases h with h | h
    · injection h with h1 h2
      subst h1
      subst h2
      simp
    · have hk : ¬k0 = k := by
        intro hc
        subst hc
        have hh := hasKey_of_mem h
        simp only at hh
        rw [hh] at hnd
        exact absurd hnd.1 (by simp)
      simp [hk, ih hnd.2 h]

theorem mergeList_self_of (ds : List JValue)
    (h : ∀ y ∈ ds, mergeVals y y = y) : mergeList ds ds = ds := by
  induction ds with
  | nil => simp
  | cons d rest ih =>
    rw [mergeList_cons_cons, h d (by simp)]
    congr 1
    exact ih (fun y hy => h y (by simp [hy]))

theorem updateFields_congr (o s1 s2 : List (String × JValue))
    (h : ∀ kv ∈ o, mergeVals kv.2 (getFieldL s1 kv.1) = mergeVals kv.2 (getFieldL s2 kv.1)) :
    updateFields o s1 = updateFields o s2 := by
  induction o with
  | nil => simp
  | cons kv rest ih =>
    obtain ⟨k, v⟩ := kv
    rw [updateFields_cons, updateFields_cons, h (k, v) (by simp),
      ih (fun kv hkv => h kv (by simp [hkv]))]

theorem updateFields_eq_self (o o' : List (String × JValue))
    (hl : ∀ kv ∈ o', lookupField o kv.1 = some kv.2)
    (hm : ∀ kv ∈ o', mergeVals kv.2 kv.2 = kv.2) :
    updateFields o' o = o' := by
  induction o' with
  | nil => simp
  | cons kv rest ih =>
    obtain ⟨k, v⟩ := kv
    rw [updateFields_cons]
    have h1 : getFieldL o k = v := by
      simp [getFieldL_eq, hl (k, v) (by simp)]
    rw [h1, hm (k, v) (by simp), ih (fun kv hkv => hl kv (by simp [hkv]))
      (fun kv hkv => hm kv (by simp [hkv]))]

theorem mem_updateFields {o s : List (String × JValue)} {kv : String × JValue}
    (h : kv ∈ updateFields o s) : hasKey o kv.1 = true := by
  induction o with
  | nil => simp at h
  | cons kv0 rest ih =>
    obtain ⟨k0, v0⟩ := kv0
    rw [updateFields_cons, List.mem_cons] at h
    rcases h with h | h
    · subst h
      simp [hasKey_cons]
    · by_cases hk : k0 = kv.1 <;> simp [hasKey_cons, hk, ih h]

theorem newFields_updateFields (o s : List (String × JValue)) :
    newFields o (updateFields o s) = [] := by
  unfold newFields
  rw [List.filter_eq_nil_iff]
  intro kv hkv
  simp [mem_updateFields hkv]

theorem mem_newFields {o s : List (String × JValue)} {kv : String × JValue}
    (h : kv ∈ newFields o s) : hasKey o kv.1 = false := by
  unfold newFields at h
  have := List.of_mem_filter h
  simpa using this

theorem newFields_idem (o s : List (String × JValue)) :
    newFields o (newFields o s) = newFields o s := by
  conv_lhs => rw [newFields]
  rw [List.filter_eq_self]
  intro kv hkv
  simp [mem_newFields hkv]

theorem newFields_append (o a b : List (String × JValue)) :
    newFields o (a ++ b) = newFields o a ++ newFields o b := by
  simp [newFields, List.filter_append]

theorem newFields_self (o : List (String × JValue)) : newFields o o = [] := by
  unfold newFields
  rw [List.filter_eq_nil_iff]
  intro kv hkv
  simp [hasKey_of_mem hkv]

theorem mergeList_absorb_of (ds : List JValue) :
    ∀ (xs : List JValue),
      (∀ d ∈ ds, ∀ x ∈ xs, mergeVals d (mergeVals d x) = mergeVals d x) →
      (∀ d ∈ ds, mergeVals d d = d) →
      mergeList ds (mergeList ds xs) = mergeList ds xs := by
  induction ds with
  | nil =>
    intro xs _ _
    simp
  | cons d rest ih =>
    intro xs h1 h2
    cases xs with
    | nil =>
      rw [mergeList_nil_right]
      exact mergeList_self_of _ h2
    | cons x xs' =>
      rw [mergeList_cons_cons, mergeList_cons_cons, h1 d (by simp) x (by simp)]
      congr 1
      exact ih xs' (fun d hd x hx => h1 d (by simp [hd]) x (by simp [hx]))
        (fun d hd => h2 d (by simp [hd]))

theorem mergeVals_absorb_aux :
    ∀ (n : Nat) (a x : JValue), sizeOf a + sizeOf x ≤ n → WfJ a →
      mergeVals a (mergeVals a x) = mergeVals a x := by
  intro n
  induction n using Nat.strong_induction_on with
  | _ n ih =>
    intro a x hn hwf
    have IH : ∀ (a' x' : JValue), sizeOf a' + sizeOf x' < n → WfJ a' →
        mergeVals a' (mergeVals a' x') = mergeVals a' x' := by
      intro a' x' h hw
      exact ih (sizeOf a' + sizeOf x') h a' x' le_rfl hw
    have SELF : ∀ y : JValue, sizeOf y + 1 < n → WfJ y → mergeVals y y = y := by
      intro y hy hw
      have h := IH y .undef (by simpa using hy) hw
      simpa using h
    cases x with
    | str s => simp
    | num m => simp
    | bool b => simp
    | undef =>
      rw [mergeVals_undef]
      cases a with
      | str s => simp
      | num m => simp
      | bool b => simp
      | undef => simp
      | arr ds =>
        rw [mergeVals_arr_arr]
        congr 1
        apply mergeList_self_of
        intro y hy
        have hs := List.sizeOf_lt_of_mem hy
        have hwfy : WfJ y := by
          cases hwf with
          | arr _ h => exact h y hy
        apply SELF y _ hwfy
        simp at hn
        omega
      | obj o =>
        have hnd : nodupKeys o = true := by
          cases hwf with
          | obj _ hk _ => exact hk
        have hwfm : ∀ kv ∈ o, WfJ kv.2 := by
          cases hwf with
          | obj _ _ h => exact h
        rw [mergeVals_obj_obj]
        congr 1
        have h2 : newFields o o = [] := newFields_self o
        have h1 : updateFields o o = o := by
          apply updateFields_eq_self
          · intro kv hkv
            obtain ⟨k, v⟩ := kv
            exact lookup_of_mem_nodup hnd hkv
          · intro kv hkv
            have hlt := List.sizeOf_lt_of_mem hkv
            obtain ⟨k, v⟩ := kv
            simp only [Prod.mk.sizeOf_spec] at hlt
            apply SELF v _ (hwfm (k, v) hkv)
            simp at hn
            omega
        rw [h1, h2, List.append_nil]
    | arr xs =>
      cases a with
      | str s => simp
      | num m => simp
      | bool b => simp
      | undef => simp
      | obj o => simp
      | arr ds =>
        rw [mergeVals_arr_arr, mergeVals_arr_arr]
        congr 1
        have hwfm : ∀ y ∈ ds, WfJ y := by
          cases hwf with
          | arr _ h => exact h
        apply mergeList_absorb_of
        · intro d hd x hx
          have hs1 := List.sizeOf_lt_of_mem hd
          have hs2 := List.sizeOf_lt_of_mem hx
          apply IH d x _ (hwfm d hd)
          simp at hn
          omega
        · intro d hd
          have hs1 := List.sizeOf_lt_of_mem hd
          apply SELF d _ (hwfm d hd)
          simp at hn
          omega
    | obj fs =>
      cases a with
      | str s => simp
      | num m => simp
      | bool b => simp
      | undef => simp
      | arr ds => simp
      | obj o =>
        have hnd : nodupKeys o = true := by
          cases hwf with
          | obj _ hk _ => exact hk
        have hwfm : ∀ kv ∈ o, WfJ kv.2 := by
          cases hwf with
          | obj _ _ h => exact h
        rw [mergeVals_obj_obj, mergeVals_obj_obj]
        congr 1
        have hupd : updateFields o (updateFields o fs ++ newFields o fs) =
            updateFields o fs := by
          apply updateFields_congr
          intro kv hkv
          have hlt := List.sizeOf_lt_of_mem hkv
          obtain ⟨k, v⟩ := kv
          have hl : lookupField o k = some v := lookup_of_mem_nodup hnd hkv
          have hU : getFieldL (updateFields o fs ++ newFields o fs) k =
              mergeVals v (getFieldL fs k) := by
            rw [getFieldL_merged, hl]
          rw [hU]
          have hgs := sizeOf_getFieldL fs k
          simp only [Prod.mk.sizeOf_spec] at hlt
          apply IH v (getFieldL fs k) _ (hwfm (k, v) hkv)
          simp at hn
          omega
        have hnew : newFields o (updateFields o fs ++ newFields o fs) =
            newFields o fs := by
          rw [newFields_append, newFields_updateFields, newFields_idem,
            List.nil_append]
        rw [hupd, hnew]

/-- Merging the same well-formed defaults object twice is the same as
merging it once (lodash absorption). -/
theorem mergeVals_absorb (a x : JValue) (hwf : WfJ a) :
    mergeVals a (mergeVals a x) = mergeVals a x :=
  mergeVals_absorb_aux (sizeOf a + sizeOf x) a x le_rfl hwf

/-- A well-formed object absorbs itself. -/
theorem mergeVals_self (a : JValue) (hwf : WfJ a) : mergeVals a a = a := by
  have h := mergeVals_absorb a .undef hwf
  simpa using h

/-! ### Canonical shape of the defaults pipeline on object documents -/

theorem merge_str_absorb (t : String) (g : JValue) :
    mergeVals (.str t) (mergeVals (.str t) g) = mergeVals (.str t) g := by
  cases g <;> simp

theorem newFields_pair (k1 k2 : String) (d1 d2 : JValue)
    (fs : List (String × JValue)) :
    newFields [(k1, d1), (k2, d2)] fs = rmKey k2 (rmKey k1 fs) := by
  induction fs with
  | nil => rfl
  | cons kv rest ih =>
    obtain ⟨k, v⟩ := kv
    by_cases h1 : k = k1
    · subst h1
      simp [newFields_cons, hasKey_cons, rmKey_cons, ih]
    · by_cases h2 : k = k2
      · subst h2
        simp [newFields_cons, hasKey_cons, h1, rmKey_cons, ih]
      · simp [newFields_cons, hasKey_cons, h1, h2, rmKey_cons, ih]
        exact ⟨fun hc => h1 hc.symm, fun hc => h2 hc.symm⟩

theorem mergeVals_pair (k1 k2 : String) (d1 d2 : JValue)
    (fs : List (String × JValue)) :
    mergeVals (.obj [(k1, d1), (k2, d2)]) (.obj fs) =
      .obj ((k1, mergeVals d1 (getFieldL fs k1)) ::
        (k2, mergeVals d2 (getFieldL fs k2)) :: rmKey k2 (rmKey k1 fs)) := by
  rw [mergeVals_obj_obj]
  simp only [updateFields_cons, updateFields_nil, newFields_pair,
    List.cons_append, List.nil_append]

theorem stage_client (fs : List (String × JValue)) :
    (if truthy (getField (JValue.obj fs) "client") then
      mergeVals (.obj [("client", DefaultClientConfig)]) (.obj fs)
    else JValue.obj fs) = .obj (clPart fs) := by
  rw [getField_obj]
  unfold clPart
  by_cases hc : truthy (getFieldL fs "client")
  · rw [if_pos hc, if_pos hc, mergeVals_singleton]
  · rw [if_neg hc, if_neg hc]

theorem stage_service (fs : List (String × JValue)) :
    (if truthy (getField (JValue.obj fs) "service") then
      mergeVals (.obj [("service", DefaultServiceConfig)]) (.obj fs)
    else JValue.obj fs) = .obj (svPart fs) := by
  rw [getField_obj]
  unfold svPart
  by_cases hc : truthy (getFieldL fs "service")
  · rw [if_pos hc, if_pos hc, mergeVals_singleton]
  · rw [if_neg hc, if_neg hc]

theorem stage_engine (sk : Option String) (fs : List (String × JValue)) :
    mergeVals (.obj [("engine", DefaultEngineConfig)])
      (if truthy (engineConfigOf sk) then
        mergeVals (engineConfigOf sk) (.obj fs) else .obj fs) =
      .obj (("engine", engineMerged sk (getFieldL fs "engine")) ::
        rmKey "engine" fs) := by
  cases sk with
  | none =>
    rw [engineConfigOf]
    rw [if_pos (by simp [truthy]), mergeVals_emptyObj, mergeVals_singleton]
    rfl
  | some k =>
    rw [engineConfigOf]
    rw [if_pos (by simp [truthy]), mergeVals_singleton, mergeVals_singleton]
    simp only [getFieldL_cons, if_pos rfl, rmKey_cons_self, rmKey_rmKey]
    rfl

/-- The whole defaults pipeline on an object document, in closed form:
the engine entry is brought to the front with the secret and default
engine layers folded in, after the client and service stages. -/
theorem applyDefaults_obj (sk : Option String) (fs : List (String × JValue)) :
    applyDefaults (engineConfigOf sk) (.obj fs) =
      .obj (("engine", engineMerged sk (getFieldL (svPart (clPart fs)) "engine")) ::
        rmKey "engine" (svPart (clPart fs))) := by
  simp only [applyDefaults]
  rw [stage_client fs, stage_service (clPart fs), stage_engine sk (svPart (clPart fs))]

theorem getFieldL_clPart_ne (fs : List (String × JValue)) (key : String)
    (h : ¬key = "client") : getFieldL (clPart fs) key = getFieldL fs key := by
  unfold clPart
  split
  · rw [getFieldL_cons]
    rw [if_neg (fun hc => h hc.symm)]
    exact getFieldL_rmKey_ne key "client" fs h
  · rfl

theorem getFieldL_svPart_ne (fs : List (String × JValue)) (key : String)
    (h : ¬key = "service") : getFieldL (svPart fs) key = getFieldL fs key := by
  unfold svPart
  split
  · rw [getFieldL_cons]
    rw [if_neg (fun hc => h hc.symm)]
    exact getFieldL_rmKey_ne key "service" fs h
  · rfl

theorem getFieldL_clPart_client (fs : List (String × JValue)) :
    getFieldL (clPart fs) "client" =
      if truthy (getFieldL fs "client") then
        mergeVals DefaultClientConfig (getFieldL fs "client")
      else getFieldL fs "client" := by
  unfold clPart
  split
  · simp
  · rfl

theorem getFieldL_svPart_service (fs : List (String × JValue)) :
    getFieldL (svPart fs) "service" =
      if truthy (getFieldL fs "service") then
        mergeVals DefaultServiceConfig (getFieldL fs "service")
      else getFieldL fs "service" := by
  unfold svPart
  split
  · simp
  · rfl

theorem rmKey_clPart (fs : List (String × JValue)) :
    rmKey "client" (clPart fs) = rmKey "client" fs := by
  unfold clPart
  split
  · rw [rmKey_cons_self, rmKey_rmKey]
  · rfl

theorem rmKey_svPart (fs : List (String × JValue)) :
    rmKey "service" (svPart fs) = rmKey "service" fs := by
  unfold svPart
  split
  · rw [rmKey_cons_self, rmKey_rmKey]
  · rfl

/-! ### Well-formedness of the built-in defaults -/

theorem rmKey_of_lookup_none (k : String) (fs : List (String × JValue))
    (h : lookupField fs k = none) : rmKey k fs = fs := by
  induction fs with
  | nil => rfl
  | cons kv rest ih =>
    obtain ⟨k0, v⟩ := kv
    by_cases hk : k0 = k
    · subst hk
      simp at h
    · rw [lookupField_cons, if_neg hk] at h
      rw [rmKey_cons_ne _ _ _ _ hk, ih h]

theorem wfJ_DefaultEngineStatsWindow : WfJ DefaultEngineStatsWindow := by
  unfold DefaultEngineStatsWindow
  refine WfJ.obj _ rfl ?_
  intro kv hkv
  simp only [List.mem_cons, List.not_mem_nil, or_false] at hkv
  rcases hkv with h | h <;> subst h <;> exact WfJ.num _

theorem wfJ_DefaultEngineConfig : WfJ DefaultEngineConfig := by
  unfold DefaultEngineConfig
  refine WfJ.obj _ rfl ?_
  intro kv hkv
  simp only [List.mem_cons, List.not_mem_nil, or_false] at hkv
  rcases hkv with h | h <;> subst h <;> exact WfJ.str _

theorem wfJ_strArr (xs : List JValue) (h : ∀ x ∈ xs, ∃ s, x = JValue.str s) :
    WfJ (.arr xs) := by
  refine WfJ.arr _ ?_
  intro x hx
  obtain ⟨s, hs⟩ := h x hx
  subst hs
  exact WfJ.str _

theorem wfJ_DefaultClientConfig : WfJ DefaultClientConfig := by
  unfold DefaultClientConfig
  refine WfJ.obj _ rfl ?_
  intro kv hkv
  simp only [List.mem_cons, List.not_mem_nil, or_false] at hkv
  rcases hkv with h | h | h | h | h | h | h <;> subst h
  · exact wfJ_strArr _ (by intro x hx; simp at hx; exact ⟨_, hx⟩)
  · refine wfJ_strArr _ ?_
    intro x hx
    simp at hx
    rcases hx with hx | hx <;> exact ⟨_, hx⟩
  · exact WfJ.str _
  · refine wfJ_strArr _ ?_
    intro x hx
    simp at hx
    rcases hx with hx | hx <;> exact ⟨_, hx⟩
  · refine wfJ_strArr _ ?_
    intro x hx
    simp at hx
    rcases hx with hx | hx <;> exact ⟨_, hx⟩
  · exact WfJ.bool _
  · exact wfJ_DefaultEngineStatsWindow

theorem wfJ_DefaultServiceConfig : WfJ DefaultServiceConfig := by
  unfold DefaultServiceConfig
  refine WfJ.obj _ rfl ?_
  intro kv hkv
  simp only [List.mem_cons, List.not_mem_nil, or_false] at hkv
  rcases hkv with h | h | h <;> subst h
  · exact wfJ_strArr _ (by intro x hx; simp at hx; exact ⟨_, hx⟩)
  · refine wfJ_strArr _ ?_
    intro x hx
    simp at hx
    rcases hx with hx | hx <;> exact ⟨_, hx⟩
  · refine WfJ.obj _ rfl ?_
    intro kv hkv
    simp only [List.mem_cons, List.not_mem_nil, or_false] at hkv
    subst hkv
    exact WfJ.str _

/-- The engine layers of the pipeline absorb themselves: folding the
secret and default engine data in a second time changes nothing. -/
theorem engineMerged_absorb (sk : Option String) (e : JValue) :
    engineMerged sk (engineMerged sk e) = engineMerged sk e := by
  cases sk with
  | none =>
    simp only [engineMerged]
    exact mergeVals_absorb _ _ wfJ_DefaultEngineConfig
  | some k =>
    simp only [engineMerged]
    cases e with
    | str s => simp [DefaultEngineConfig]
    | num n => simp [DefaultEngineConfig]
    | bool b => simp [DefaultEngineConfig]
    | arr xs => simp [DefaultEngineConfig]
    | undef =>
      simp [DefaultEngineConfig, mergeVals_singleton, mergeVals_pair,
        getFieldL_cons, rmKey_cons]
    | obj efs =>
      simp [DefaultEngineConfig, mergeVals_singleton, mergeVals_pair,
        getFieldL_cons, rmKey_cons, getFieldL_rmKey_ne, lookupField_rmKey_self,
        lookupField_rmKey_ne, rmKey_of_lookup_none, merge_str_absorb,
        getFieldL_eq]

theorem DCC_absorb (x : JValue) :
    mergeVals DefaultClientConfig (mergeVals DefaultClientConfig x) =
      mergeVals DefaultClientConfig x :=
  mergeVals_absorb _ _ wfJ_DefaultClientConfig

theorem DSC_absorb (x : JValue) :
    mergeVals DefaultServiceConfig (mergeVals DefaultServiceConfig x) =
      mergeVals DefaultServiceConfig x :=
  mergeVals_absorb _ _ wfJ_DefaultServiceConfig

/-- The defaults pipeline of `loadConfig` (client, service, secret engine
and default engine layers, lines 381-386) is idempotent on every
document. -/
theorem applyDefaults_idem (sk : Option String) (x : JValue) :
    applyDefaults (engineConfigOf sk) (applyDefaults (engineConfigOf sk) x) =
      applyDefaults (engineConfigOf sk) x := by
  cases x with
  | str s => cases sk <;> simp [applyDefaults, engineConfigOf, truthy]
  | num n => cases sk <;> simp [applyDefaults, engineConfigOf, truthy]
  | bool b => cases sk <;> simp [applyDefaults, engineConfigOf, truthy]
  | arr xs => cases sk <;> simp [applyDefaults, engineConfigOf, truthy]
  | undef =>
    have h1 : applyDefaults (engineConfigOf sk) JValue.undef =
        JValue.obj [("engine", engineMerged sk JValue.undef)] := by
      cases sk <;>
        simp [applyDefaults, engineConfigOf, truthy, engineMerged,
          mergeVals_singleton, mergeVals_emptyObj, getFieldL_cons]
    rw [h1, applyDefaults_obj]
    simp [clPart, svPart, getFieldL_cons, truthy, rmKey_cons,
      engineMerged_absorb]
  | obj fs =>
    rw [applyDefaults_obj, applyDefaults_obj]
    by_cases hc : truthy (getFieldL fs "client")
    · by_cases hs : truthy (getFieldL fs "service")
      · simp [clPart, svPart, getFieldL_cons, rmKey_cons, getFieldL_rmKey_ne,
          getFieldL_clPart_ne, getFieldL_svPart_ne, hc, hs, truthy_mergeVals,
          DCC_absorb, DSC_absorb, engineMerged_absorb, lookupField_rmKey_self,
          lookupField_rmKey_ne, rmKey_of_lookup_none, rmKey_rmKey]
      · simp [clPart, svPart, getFieldL_cons, rmKey_cons, getFieldL_rmKey_ne,
          getFieldL_clPart_ne, getFieldL_svPart_ne, hc, hs, truthy_mergeVals,
          DCC_absorb, DSC_absorb, engineMerged_absorb, lookupField_rmKey_self,
          lookupField_rmKey_ne, rmKey_of_lookup_none, rmKey_rmKey]
    · by_cases hs : truthy (getFieldL fs "service")
      · simp [clPart, svPart, getFieldL_cons, rmKey_cons, getFieldL_rmKey_ne,
          getFieldL_clPart_ne, getFieldL_svPart_ne, hc, hs, truthy_mergeVals,
          DCC_absorb, DSC_absorb, engineMerged_absorb, lookupField_rmKey_self,
          lookupField_rmKey_ne, rmKey_of_lookup_none, rmKey_rmKey]
      · simp [clPart, svPart, getFieldL_cons, rmKey_cons, getFieldL_rmKey_ne,
          getFieldL_clPart_ne, getFieldL_svPart_ne, hc, hs, truthy_mergeVals,
          DCC_absorb, DSC_absorb, engineMerged_absorb, lookupField_rmKey_self,
          lookupField_rmKey_ne, rmKey_of_lookup_none, rmKey_rmKey]

/-! ### Property writes and the split model -/

theorem getFieldL_mapSet_ne (fs : List (String × JValue)) (k key : String)
    (v : JValue) (hne : ¬key = k) :
    getFieldL (fs.map (fun kv => if kv.1 = k then (k, v) else kv)) key =
      getFieldL fs key := by
  induction fs with
  | nil => simp
  | cons kv rest ih =>
    obtain ⟨k0, v0⟩ := kv
    simp only [List.map_cons]
    by_cases hk : k0 = k
    · subst hk
      rw [if_pos rfl, getFieldL_cons, getFieldL_cons,
        if_neg (fun hc => hne hc.symm), if_neg (fun hc => hne hc.symm)]
      exact ih
    · rw [if_neg hk, getFieldL_cons, getFieldL_cons]
      by_cases hk0 : k0 = key
      · rw [if_pos hk0, if_pos hk0]
      · rw [if_neg hk0, if_neg hk0]
        exact ih

theorem getFieldL_mapSet_self (fs : List (String × JValue)) (k : String)
    (v : JValue) (h : hasKey fs k = true) :
    getFieldL (fs.map (fun kv => if kv.1 = k then (k, v) else kv)) k = v := by
  induction fs with
  | nil => simp [hasKey] at h
  | cons kv rest ih =>
    obtain ⟨k0, v0⟩ := kv
    simp only [List.map_cons]
    by_cases hk : k0 = k
    · subst hk
      rw [if_pos rfl, getFieldL_cons, if_pos rfl]
    · rw [hasKey_cons] at h
      simp only [hk, Bool.false_or] at h
      rw [if_neg hk, getFieldL_cons, if_neg hk]
      exact ih (by simpa using h)

theorem getFieldL_appendOne_ne (fs : List (String × JValue)) (k key : String)
    (v : JValue) (hne : ¬key = k) :
    getFieldL (fs ++ [(k, v)]) key = getFieldL fs key := by
  induction fs with
  | nil =>
    simp only [List.nil_append, getFieldL_cons, getFieldL_nil]
    rw [if_neg (fun hc => hne hc.symm)]
  | cons kv rest ih =>
    obtain ⟨k0, v0⟩ := kv
    rw [List.cons_append, getFieldL_cons, getFieldL_cons]
    by_cases hk0 : k0 = key
    · rw [if_pos hk0, if_pos hk0]
    · rw [if_neg hk0, if_neg hk0]
      exact ih

theorem getFieldL_appendOne_self (fs : List (String × JValue)) (k : String)
    (v : JValue) (h : hasKey fs k = false) :
    getFieldL (fs ++ [(k, v)]) k = v := by
  induction fs with
  | nil => simp
  | cons kv rest ih =>
    obtain ⟨k0, v0⟩ := kv
    rw [hasKey_cons] at h
    simp only [Bool.or_eq_false_iff] at h
    rw [List.cons_append, getFieldL_cons, if_neg (by simpa using h.1)]
    exact ih h.2

theorem getFieldL_setKey_self (fs : List (String × JValue)) (k : String) (v : JValue) :
    getFieldL (setKey fs k v) k = v := by
  unfold setKey
  by_cases h : hasKey fs k
  · rw [if_pos h]
    exact getFieldL_mapSet_self fs k v h
  · rw [if_neg h]
    exact getFieldL_appendOne_self fs k v (by simpa using h)

theorem getFieldL_setKey_ne (fs : List (String × JValue)) (k key : String)
    (v : JValue) (hne : ¬key = k) :
    getFieldL (setKey fs k v) key = getFieldL fs key := by
  unfold setKey
  by_cases h : hasKey fs k
  · rw [if_pos h]
    exact getFieldL_mapSet_ne fs k key v hne
  · rw [if_neg h]
    exact getFieldL_appendOne_ne fs k key v hne

theorem splitCh_ne_nil (c : Char) (xs : List Char) : splitCh c xs ≠ [] := by
  cases xs with
  | nil => simp [splitCh]
  | cons x rest =>
    rw [splitCh]
    cases h : splitCh c rest with
    | nil => simp
    | cons hd tl =>
      by_cases hx : x = c <;> simp [hx]

theorem splitCh_no_sep (c : Char) (xs : List Char) (h : c ∉ xs) :
    splitCh c xs = [xs] := by
  induction xs with
  | nil => rfl
  | cons x rest ih =>
    rw [List.mem_cons, not_or] at h
    rw [splitCh, ih h.2]
    have hx : ¬x = c := fun hc => h.1 hc.symm
    simp [hx]

theorem splitCh_append_sep (c : Char) (xs ys : List Char) (h : c ∉ xs) :
    splitCh c (xs ++ c :: ys) = xs :: splitCh c ys := by
  induction xs with
  | nil =>
    rw [List.nil_append, splitCh]
    cases hys : splitCh c ys with
    | nil => exact absurd hys (splitCh_ne_nil c ys)
    | cons hd tl => simp
  | cons x rest ih =>
    rw [List.mem_cons, not_or] at h
    rw [List.cons_append, splitCh, ih h.2]
    have hx : ¬x = c := fun hc => h.1 hc.symm
    simp [hx]

/-! ### Claim theorems -/

theorem string_mk_data (s : String) : String.mk s.data = s := rfl

/-- Claim C8 (corrected).  `parseServiceSpecificer` does not split on the
first `@` only: it splits on every `@`, takes the first segment as the id
and the second segment as the tag (segments beyond the second are
discarded), and trims both.  In particular `"id@tag"` yields the trimmed
`(id, tag)`, a string without `@` yields `(itself trimmed, none)`, and
`""` yields `("", none)`. -/
theorem c8_parse_splits_every_at :
    (∀ a b : String, '@' ∉ a.data → '@' ∉ b.data →
      parseServiceSpecificer (a ++ "@" ++ b) = (jsTrim a, some (jsTrim b)))
    ∧ (∀ a : String, '@' ∉ a.data → parseServiceSpecificer a = (jsTrim a, none))
    ∧ parseServiceSpecificer "" = ("", none)
    ∧ (∀ a b c2 : String, '@' ∉ a.data → '@' ∉ b.data →
      parseServiceSpecificer (a ++ "@" ++ b ++ "@" ++ c2) =
        (jsTrim a, some (jsTrim b))) := by
  refine ⟨?_, ?_, rfl, ?_⟩
  · intro a b ha hb
    unfold parseServiceSpecificer splitStr
    have hdata : (a ++ "@" ++ b).data = a.data ++ '@' :: b.data := by
      rw [String.data_append, String.data_append]
      simp
    rw [hdata, splitCh_append_sep _ _ _ ha, splitCh_no_sep _ _ hb]
    simp [string_mk_data]
  · intro a ha
    unfold parseServiceSpecificer splitStr
    rw [splitCh_no_sep _ _ ha]
    simp [string_mk_data]
  · intro a b c2 ha hb
    unfold parseServiceSpecificer splitStr
    have hdata : (a ++ "@" ++ b ++ "@" ++ c2).data =
        a.data ++ '@' :: (b.data ++ '@' :: c2.data) := by
      rw [String.data_append, String.data_append, String.data_append,
        String.data_append]
      simp
    rw [hdata, splitCh_append_sep _ _ _ ha, splitCh_append_sep _ _ _ hb]
    simp [string_mk_data]

/-- Claim C8 counterexample: on `"a@b@c"` the parser returns tag `"b"`,
not `"b@c"` as splitting on the first `@` only would give. -/
theorem c8_counterexample :
    parseServiceSpecificer "a@b@c" = ("a", some "b") ∧
    ¬parseServiceSpecificer "a@b@c" = ("a", some "b@c") := by
  constructor
  · rfl
  · decide

/-- Claim C8 witness: the amended statement at `"id @ tag"`-shaped input
and at a plain id. -/
theorem c8_witness :
    parseServiceSpecificer ("id " ++ "@" ++ " tag") = (jsTrim "id ", some (jsTrim " tag"))
    ∧ parseServiceSpecificer "pay" = (jsTrim "pay", none)
    ∧ jsTrim "id " = "id" ∧ jsTrim " tag" = "tag" := by
  refine ⟨c8_parse_splits_every_at.1 "id " " tag" (by decide) (by decide),
    c8_parse_splits_every_at.2.1 "pay" (by decide), by decide, by decide⟩

@[simp] theorem truthy_undef : truthy .undef = false := rfl

@[simp] theorem truthy_obj (fs : List (String × JValue)) : truthy (.obj fs) = true := rfl

@[simp] theorem truthy_arr (xs : List JValue) : truthy (.arr xs) = true := rfl

@[simp] theorem truthy_str (s : String) : truthy (.str s) = !(s = "") := rfl

@[simp] theorem truthy_num (n : Int) : truthy (.num n) = !(n = 0) := rfl

@[simp] theorem truthy_bool (b : Bool) : truthy (.bool b) = b := rfl

/-- The client block synthesized in the C7 scenario. -/
theorem clPart_eval_c7 :
    clPart [("client", JValue.obj
      [("includes", .arr [.str "src/**/*.\x7bts,tsx,js,jsx,graphql\x7d"]),
       ("excludes", .arr [.str "**/node_modules", .str "**/__tests__"]),
       ("service", .str "cart")])] =
    [("client", mergeVals DefaultClientConfig (JValue.obj
      [("includes", .arr [.str "src/**/*.\x7bts,tsx,js,jsx,graphql\x7d"]),
       ("excludes", .arr [.str "**/node_modules", .str "**/__tests__"]),
       ("service", .str "cart")]))] := by
  simp [clPart, truthy, rmKey]

/-- No service block appears in the C7 scenario. -/
theorem svPart_eval_c7 (cb : JValue) :
    svPart [("client", cb)] = [("client", cb)] := by
  simp [svPart, truthy, getFieldL_cons]

/-- The client block of the C7 scenario merged with the client defaults,
evaluated. -/
theorem merged_client_c7 :
    mergeVals DefaultClientConfig (JValue.obj
      [("includes", .arr [.str "src/**/*.\x7bts,tsx,js,jsx,graphql\x7d"]),
       ("excludes", .arr [.str "**/node_modules", .str "**/__tests__"]),
       ("service", .str "cart")]) =
    JValue.obj
      [("includes", .arr [.str "src/**/*.\x7bts,tsx,js,jsx,graphql\x7d"]),
       ("excludes", .arr [.str "**/node_modules", .str "**/__tests__"]),
       ("tagName", .str "gql"),
       ("clientOnlyDirectives", .arr [.str "connection", .str "type"]),
       ("clientSchemaDirectives", .arr [.str "client", .str "rest"]),
       ("addTypename", .bool true),
       ("statsWindow", DefaultEngineStatsWindow),
       ("service", .str "cart")] := by
  rw [show DefaultClientConfig = JValue.obj
    [("includes", .arr [.str "src/**/*.\x7bts,tsx,js,jsx,graphql\x7d"]),
     ("excludes", .arr [.str "**/node_modules", .str "**/__tests__"]),
     ("tagName", .str "gql"),
     ("clientOnlyDirectives", .arr [.str "connection", .str "type"]),
     ("clientSchemaDirectives", .arr [.str "client", .str "rest"]),
     ("addTypename", .bool true),
     ("statsWindow", DefaultEngineStatsWindow)] from rfl, mergeVals_obj_obj]
  simp [newFields_cons, hasKey_cons]

/-- The engine layers of the C7 scenario, evaluated: the secret key plus
the default endpoint and frontend. -/
theorem engine_eval_c7 :
    engineMerged (some "service:cart") JValue.undef =
    JValue.obj [("endpoint", .str "https://engine-graphql.apollographql.com/api/graphql"),
      ("frontend", .str "https://engine.apollographql.com"),
      ("apiKey", .str "service:cart")] := by
  simp only [engineMerged, mergeVals_undef]
  rw [show DefaultEngineConfig = JValue.obj
    [("endpoint", .str "https://engine-graphql.apollographql.com/api/graphql"),
     ("frontend", .str "https://engine.apollographql.com")] from rfl, mergeVals_pair]
  simp [rmKey_cons]

/-- The full defaults pipeline of the C7 scenario, evaluated. -/
theorem apply_eval_c7 :
    applyDefaults (engineConfigOf (some "service:cart"))
      (.obj [("client", .obj
        [("includes", .arr [.str "src/**/*.\x7bts,tsx,js,jsx,graphql\x7d"]),
         ("excludes", .arr [.str "**/node_modules", .str "**/__tests__"]),
         ("service", .str "cart")])]) =
    .obj [("engine", .obj [("endpoint", .str "https://engine-graphql.apollographql.com/api/graphql"),
            ("frontend", .str "https://engine.apollographql.com"),
            ("apiKey", .str "service:cart")]),
          ("client", JValue.obj
            [("includes", .arr [.str "src/**/*.\x7bts,tsx,js,jsx,graphql\x7d"]),
             ("excludes", .arr [.str "**/node_modules", .str "**/__tests__"]),
             ("tagName", .str "gql"),
             ("clientOnlyDirectives", .arr [.str "connection", .str "type"]),
             ("clientSchemaDirectives", .arr [.str "client", .str "rest"]),
             ("addTypename", .bool true),
             ("statsWindow", DefaultEngineStatsWindow),
             ("service", .str "cart")])] := by
  rw [applyDefaults_obj, clPart_eval_c7, merged_client_c7, svPart_eval_c7]
  rw [show getFieldL [("client", JValue.obj
      [("includes", JValue.arr [.str "src/**/*.\x7bts,tsx,js,jsx,graphql\x7d"]),
       ("excludes", .arr [.str "**/node_modules", .str "**/__tests__"]),
       ("tagName", .str "gql"),
       ("clientOnlyDirectives", .arr [.str "connection", .str "type"]),
       ("clientSchemaDirectives", .arr [.str "client", .str "rest"]),
       ("addTypename", .bool true),
       ("statsWindow", DefaultEngineStatsWindow),
       ("service", .str "cart")])] "engine" = JValue.undef from rfl]
  rw [engine_eval_c7]
  rfl

/-- Claim C7 (confirmed).  `getServiceFromKey` returns the embedded name
for `service:<name>` secrets and `undefined` for any other (case-sensitive)
prefix; and with `ENGINE_API_KEY = "service:cart"` in the secrets file and
a document whose only block is a client block without a service name, and
no caller-supplied name or type, resolution yields a client project named
`"cart"`. -/
theorem c7_name_extractor :
    (∀ n : String, ':' ∉ n.data →
      getServiceFromKey (some ("service:" ++ n)) = some n)
    ∧ (∀ (k p : String) (rest : List String),
        splitStr ':' k = p :: rest → ¬p = "service" →
        getServiceFromKey (some k) = none)
    ∧ getServiceFromKey none = none
    ∧ resultName (loadConfig { configPath := some "/proj" }
        (some ⟨.obj [("client", .obj [])], "/proj/apollo.config.js", false⟩)
        (some [("ENGINE_API_KEY", "service:cart")]) "/proj") = some "cart"
    ∧ resultIsClient (loadConfig { configPath := some "/proj" }
        (some ⟨.obj [("client", .obj [])], "/proj/apollo.config.js", false⟩)
        (some [("ENGINE_API_KEY", "service:cart")]) "/proj") = some true := by
  refine ⟨?_, ?_, rfl, ?_, ?_⟩
  · intro n hn
    have hne : ¬("service:" ++ n) = "" := by
      intro hc
      have hd := congrArg String.data hc
      rw [String.data_append] at hd
      simp at hd
    simp only [getServiceFromKey]
    rw [if_neg hne]
    have hdata : ("service:" ++ n).data = "service".data ++ ':' :: n.data := by
      rw [String.data_append]
      rfl
    unfold splitStr
    rw [hdata, splitCh_append_sep _ _ _ (by decide), splitCh_no_sep _ _ hn]
    simp [string_mk_data]
  · intro k p rest hsplit hp
    simp only [getServiceFromKey]
    by_cases hk : k = ""
    · rw [if_pos hk]
    · rw [if_neg hk, hsplit]
      simp [hp]
  · have h0 : loadConfig { configPath := some "/proj" }
        (some ⟨.obj [("client", .obj [])], "/proj/apollo.config.js", false⟩)
        (some [("ENGINE_API_KEY", "service:cart")]) "/proj" =
        .ok (ApolloConfig.ofRaw
          (applyDefaults (engineConfigOf (some "service:cart"))
            (.obj [("client", .obj
              [("includes", .arr [.str "src/**/*.\x7bts,tsx,js,jsx,graphql\x7d"]),
               ("excludes", .arr [.str "**/node_modules", .str "**/__tests__"]),
               ("service", .str "cart")])]))
          (some "/proj")) := rfl
    rw [h0, apply_eval_c7]
    rfl
  · have h0 : loadConfig { configPath := some "/proj" }
        (some ⟨.obj [("client", .obj [])], "/proj/apollo.config.js", false⟩)
        (some [("ENGINE_API_KEY", "service:cart")]) "/proj" =
        .ok (ApolloConfig.ofRaw
          (applyDefaults (engineConfigOf (some "service:cart"))
            (.obj [("client", .obj
              [("includes", .arr [.str "src/**/*.\x7bts,tsx,js,jsx,graphql\x7d"]),
               ("excludes", .arr [.str "**/node_modules", .str "**/__tests__"]),
               ("service", .str "cart")])]))
          (some "/proj")) := rfl
    rw [h0, apply_eval_c7]
    rfl

/-- Claim C7 witness: the general clauses at concrete inputs. -/
theorem c7_witness :
    getServiceFromKey (some ("service:" ++ "cart")) = some "cart"
    ∧ getServiceFromKey (some "Service:cart") = none := by
  constructor
  · exact c7_name_extractor.1 "cart" (by decide)
  · exact c7_name_extractor.2.1 "Service:cart" "Service" ["cart"] rfl (by decide)

/-- Claim C5 (corrected).  The `tag` getter returns a truthy explicitly
assigned tag; otherwise it derives the tag from the client's string
service specifier (a truthy embedded tag, else `"current"`).  But nothing
is cached: the getter stores nothing (reads leave the object unchanged and
recompute the derivation each time), and an explicitly assigned empty tag
is ignored rather than returned. -/
theorem c5_tag_amended :
    (∀ (c : ApolloConfig) (t : String), c.tagStore = some t → ¬t = "" →
      c.tag = t)
    ∧ (∀ (c : ApolloConfig) (t : String), ¬t = "" → (c.setTag t).tag = t)
    ∧ (∀ (c : ApolloConfig) (s tg : String),
        c.tagStore = none ∨ c.tagStore = some "" →
        getField c.client "service" = .str s →
        (parseServiceSpecificer s).2 = some tg → ¬tg = "" → c.tag = tg)
    ∧ (∀ c : ApolloConfig, c.tagStore = none ∨ c.tagStore = some "" →
        truthy c.client = false → c.tag = "current")
    ∧ (∀ (c : ApolloConfig) (s : String),
        c.tagStore = none ∨ c.tagStore = some "" →
        getField c.client "service" = .str s →
        (parseServiceSpecificer s).2 = none → c.tag = "current")
    ∧ (∀ c : ApolloConfig, c.tagRead = (c.tag, c)) := by
  have hderived : ∀ (c : ApolloConfig) (s tg : String),
      getField c.client "service" = .str s →
      (parseServiceSpecificer s).2 = some tg → ¬tg = "" →
      (if truthy c.client then tagFromClient c.client else "current") = tg := by
    intro c s tg hsv hp ht
    cases hcl : c.client with
    | obj fs =>
      rw [if_pos (truthy_obj fs)]
      rw [hcl] at hsv
      simp only [tagFromClient, hsv, hp]
      rw [if_neg ht]
    | str s0 => rw [hcl] at hsv; simp at hsv
    | num n => rw [hcl] at hsv; simp at hsv
    | bool b => rw [hcl] at hsv; simp at hsv
    | undef => rw [hcl] at hsv; simp at hsv
    | arr xs => rw [hcl] at hsv; simp at hsv
  have hderived2 : ∀ (c : ApolloConfig) (s : String),
      getField c.client "service" = .str s →
      (parseServiceSpecificer s).2 = none →
      (if truthy c.client then tagFromClient c.client else "current") = "current" := by
    intro c s hsv hp
    cases hcl : c.client with
    | obj fs =>
      rw [if_pos (truthy_obj fs)]
      rw [hcl] at hsv
      simp only [tagFromClient, hsv, hp]
    | str s0 => rw [hcl] at hsv; simp at hsv
    | num n => rw [hcl] at hsv; simp at hsv
    | bool b => rw [hcl] at hsv; simp at hsv
    | undef => rw [hcl] at hsv; simp at hsv
    | arr xs => rw [hcl] at hsv; simp at hsv
  refine ⟨?_, ?_, ?_, ?_, ?_, fun c => rfl⟩
  · intro c t h ht
    unfold ApolloConfig.tag
    rw [h]
    simp [ht]
  · intro c t ht
    unfold ApolloConfig.tag ApolloConfig.setTag
    simp [ht]
  · intro c s tg hst hsv hp ht
    unfold ApolloConfig.tag
    rcases hst with h | h <;> rw [h]
    · exact hderived c s tg hsv hp ht
    · simp only [if_pos rfl]
      exact hderived c s tg hsv hp ht
  · intro c hst hcl
    unfold ApolloConfig.tag
    rcases hst with h | h <;> rw [h] <;> simp [hcl]
  · intro c s hst hsv hp
    unfold ApolloConfig.tag
    rcases hst with h | h <;> rw [h]
    · exact hderived2 c s hsv hp
    · simp only [if_pos rfl]
      exact hderived2 c s hsv hp

/-- Claim C5 counterexample: nothing is cached.  After a first read of
`tag` (which returns `"b"` and leaves the object unchanged), changing the
client block through `setDefaults` makes the next read return `"y"` —
contradicting "later reads return the same value even if the underlying
client block changes". -/
theorem c5_counterexample :
    (ApolloConfig.ofRaw (.obj [("client", .obj [("service", .str "a@b")])])
      none).tag = "b"
    ∧ ApolloConfig.tagRead (ApolloConfig.ofRaw
        (.obj [("client", .obj [("service", .str "a@b")])]) none) =
      ("b", ApolloConfig.ofRaw (.obj [("client", .obj [("service", .str "a@b")])]) none)
    ∧ (((ApolloConfig.tagRead (ApolloConfig.ofRaw
          (.obj [("client", .obj [("service", .str "a@b")])]) none)).2.setDefaults
        (.obj [("service", .str "x@y")]) .undef .undef).tag = "y")
    ∧ ¬("y" = "b") := by
  have hm : mergeVals (.obj [("client", .obj [("service", .str "a@b")])])
      (.obj [("client", .obj [("service", .str "x@y")]), ("engine", .undef),
        ("service", .undef)]) =
      .obj [("client", .obj [("service", .str "x@y")]), ("engine", .undef),
        ("service", .undef)] := by
    rw [mergeVals_obj_obj]
    simp [newFields_cons, hasKey_cons, mergeVals_obj_obj]
  refine ⟨rfl, rfl, ?_, by decide⟩
  simp only [ApolloConfig.tagRead, ApolloConfig.setDefaults, ApolloConfig.ofRaw, hm]
  rfl

/-- Claim C5 witness: the amended clauses at concrete configs. -/
theorem c5_witness :
    ((ApolloConfig.ofRaw (.obj [("client", .obj [])]) none).setTag "v").tag = "v"
    ∧ (ApolloConfig.ofRaw (.obj [("client", .obj [("service", .str "a@b")])])
        none).tag = "b"
    ∧ (ApolloConfig.ofRaw (.obj []) none).tag = "current" := by
  refine ⟨c5_tag_amended.2.1 _ "v" (by decide), ?_, ?_⟩
  · exact c5_tag_amended.2.2.1 _ "a@b" "b" (Or.inl rfl) rfl rfl (by decide)
  · exact c5_tag_amended.2.2.2.1 _ (Or.inl rfl) rfl

/-- Claim C6 (corrected).  `configDirURI` returns the parent directory
exactly when the location's path contains the substring `".js"` — which is
true for `.js` configs but also for every `.json` path (so a static
`package.json` location returns its parent directory, not itself), and
false for `.ts` configs (which return the location itself, not the
parent). -/
theorem c6_configDirURI_amended :
    ∀ (c : ApolloConfig) (uri : String), c.configURI = some uri →
      (jsIncludes uri ".js" = true → c.configDirURI = some (dirname uri))
      ∧ (jsIncludes uri ".js" = false → c.configDirURI = some uri) := by
  intro c uri h
  unfold ApolloConfig.configDirURI
  rw [h]
  constructor <;> intro hj <;> simp [hj]

/-- Claim C6 counterexample: a static `package.json` location yields its
parent directory (because `".json"` contains `".js"`), and an executable
`apollo.config.ts` location yields itself, both contrary to the claim. -/
theorem c6_counterexample :
    (ApolloConfig.ofRaw (.obj [("client", .obj [])])
      (some "/home/user/package.json")).configDirURI = some "/home/user"
    ∧ ¬((ApolloConfig.ofRaw (.obj [("client", .obj [])])
      (some "/home/user/package.json")).configDirURI = some "/home/user/package.json")
    ∧ (ApolloConfig.ofRaw (.obj [("client", .obj [])])
      (some "/home/user/apollo.config.ts")).configDirURI =
        some "/home/user/apollo.config.ts"
    ∧ ¬((ApolloConfig.ofRaw (.obj [("client", .obj [])])
      (some "/home/user/apollo.config.ts")).configDirURI = some "/home/user") := by
  refine ⟨rfl, by decide, rfl, by decide⟩

/-- Claim C6 witness: the amended statement at a `.js` config path and at
a path without `".js"`. -/
theorem c6_witness :
    jsIncludes "/w/apollo.config.js" ".js" = true
    ∧ (ApolloConfig.ofRaw (.obj [("client", .obj [])])
        (some "/w/apollo.config.js")).configDirURI =
      some (dirname "/w/apollo.config.js")
    ∧ dirname "/w/apollo.config.js" = "/w"
    ∧ jsIncludes "/w/schema.graphql" ".js" = false
    ∧ (ApolloConfig.ofRaw (.obj [("client", .obj [])])
        (some "/w/schema.graphql")).configDirURI = some "/w/schema.graphql" := by
  refine ⟨by decide,
    (c6_configDirURI_amended _ "/w/apollo.config.js" rfl).1 (by decide),
    by decide, by decide,
    (c6_configDirURI_amended _ "/w/schema.graphql" rfl).2 (by decide)⟩

/-- Claim C10 (confirmed).  `setDefaults` never touches `name`,
`isClient`, `isService` or `configURI` (whatever the partial does to the
client or service blocks), and it replaces `engine` only when the
partial's `engine` fragment is truthy (in which case it becomes the merged
document's engine view). -/
theorem c10_setDefaults_frame :
    ∀ (c : ApolloConfig) (client engine service : JValue),
      (c.setDefaults client engine service).name = c.name
      ∧ (c.setDefaults client engine service).isClient = c.isClient
      ∧ (c.setDefaults client engine service).isService = c.isService
      ∧ (c.setDefaults client engine service).configURI = c.configURI
      ∧ (truthy engine = false →
          (c.setDefaults client engine service).engine = c.engine)
      ∧ (truthy engine = true →
          (c.setDefaults client engine service).engine =
            getField (c.setDefaults client engine service).rawConfig "engine") := by
  intro c client engine service
  refine ⟨rfl, rfl, rfl, rfl, ?_, ?_⟩
  · intro h
    simp [ApolloConfig.setDefaults, h]
  · intro h
    simp [ApolloConfig.setDefaults, h]

/-- Claim C10 witness: the frame at a concrete config, with a falsy and
with a truthy engine fragment. -/
theorem c10_witness :
    ((ApolloConfig.ofRaw (.obj [("client", .obj [])]) none).setDefaults
      (.obj [("name", .str "n")]) .undef .undef).name =
      (ApolloConfig.ofRaw (.obj [("client", .obj [])]) none).name
    ∧ ((ApolloConfig.ofRaw (.obj [("client", .obj [])]) none).setDefaults
        (.obj [("name", .str "n")]) .undef .undef).engine =
      (ApolloConfig.ofRaw (.obj [("client", .obj [])]) none).engine
    ∧ ((ApolloConfig.ofRaw (.obj [("client", .obj [])]) none).setDefaults
        .undef (.obj [("apiKey", .str "k")]) .undef).engine =
      getField ((ApolloConfig.ofRaw (.obj [("client", .obj [])]) none).setDefaults
        .undef (.obj [("apiKey", .str "k")]) .undef).rawConfig "engine" := by
  refine ⟨(c10_setDefaults_frame _ _ _ _).1,
    (c10_setDefaults_frame _ _ _ _).2.2.2.2.1 rfl,
    (c10_setDefaults_frame _ _ _ _).2.2.2.2.2 rfl⟩

/-- The C1 counterexample document's client block merged with the client
defaults: the document's one-element `excludes` array is merged index-wise
with the two-element default, so the default's second element survives. -/
theorem merged_client_c1 :
    mergeVals DefaultClientConfig (JValue.obj [("excludes", .arr [.str "x"])]) =
    JValue.obj
      [("includes", .arr [.str "src/**/*.\x7bts,tsx,js,jsx,graphql\x7d"]),
       ("excludes", .arr [.str "x", .str "**/__tests__"]),
       ("tagName", .str "gql"),
       ("clientOnlyDirectives", .arr [.str "connection", .str "type"]),
       ("clientSchemaDirectives", .arr [.str "client", .str "rest"]),
       ("addTypename", .bool true),
       ("statsWindow", DefaultEngineStatsWindow)] := by
  rw [show DefaultClientConfig = JValue.obj
    [("includes", .arr [.str "src/**/*.\x7bts,tsx,js,jsx,graphql\x7d"]),
     ("excludes", .arr [.str "**/node_modules", .str "**/__tests__"]),
     ("tagName", .str "gql"),
     ("clientOnlyDirectives", .arr [.str "connection", .str "type"]),
     ("clientSchemaDirectives", .arr [.str "client", .str "rest"]),
     ("addTypename", .bool true),
     ("statsWindow", DefaultEngineStatsWindow)] from rfl, mergeVals_obj_obj]
  simp [newFields_cons, hasKey_cons]

/-- The defaults pipeline on the C1 counterexample document, evaluated. -/
theorem apply_eval_c1 :
    applyDefaults (engineConfigOf none)
      (.obj [("client", .obj [("excludes", .arr [.str "x"])])]) =
    .obj [("engine", DefaultEngineConfig),
          ("client", JValue.obj
            [("includes", .arr [.str "src/**/*.\x7bts,tsx,js,jsx,graphql\x7d"]),
             ("excludes", .arr [.str "x", .str "**/__tests__"]),
             ("tagName", .str "gql"),
             ("clientOnlyDirectives", .arr [.str "connection", .str "type"]),
             ("clientSchemaDirectives", .arr [.str "client", .str "rest"]),
             ("addTypename", .bool true),
             ("statsWindow", DefaultEngineStatsWindow)])] := by
  rw [applyDefaults_obj]
  rw [show clPart [("client", JValue.obj [("excludes", .arr [.str "x"])])] =
    [("client", mergeVals DefaultClientConfig
      (JValue.obj [("excludes", .arr [.str "x"])]))] from by
        simp [clPart, rmKey]]
  rw [merged_client_c1]
  rw [show svPart [("client", JValue.obj
      [("includes", .arr [.str "src/**/*.\x7bts,tsx,js,jsx,graphql\x7d"]),
       ("excludes", .arr [.str "x", .str "**/__tests__"]),
       ("tagName", .str "gql"),
       ("clientOnlyDirectives", .arr [.str "connection", .str "type"]),
       ("clientSchemaDirectives", .arr [.str "client", .str "rest"]),
       ("addTypename", .bool true),
       ("statsWindow", DefaultEngineStatsWindow)])] =
    [("client", JValue.obj
      [("includes", .arr [.str "src/**/*.\x7bts,tsx,js,jsx,graphql\x7d"]),
       ("excludes", .arr [.str "x", .str "**/__tests__"]),
       ("tagName", .str "gql"),
       ("clientOnlyDirectives", .arr [.str "connection", .str "type"]),
       ("clientSchemaDirectives", .arr [.str "client", .str "rest"]),
       ("addTypename", .bool true),
       ("statsWindow", DefaultEngineStatsWindow)])] from by
        simp [svPart, getFieldL_cons]]
  simp only [engineMerged, getFieldL_cons, getFieldL_nil]
  norm_num
  constructor
  · exact mergeVals_undef DefaultEngineConfig
  · simp [rmKey_cons]

/-- Claim C1 (corrected).  The defaults merge is deep and left-biased on
scalars: every scalar value the document holds, at any depth (also inside
arrays), survives the whole defaults pipeline.  But a present array does
NOT fully replace the default array: lodash merges arrays index by index —
document elements win position-wise and the default array's surplus tail
elements survive in the resolved configuration. -/
theorem c1_document_wins_amended :
    (∀ (engineConfig config : JValue) (p : List JStep) (v : JValue),
      getPath config p = some v → isScalar v = true →
      getPath (applyDefaults engineConfig config) p = some v)
    ∧ (∀ (ds xs : List JValue),
        mergeVals (.arr ds) (.arr xs) = .arr (mergeList ds xs)
        ∧ (mergeList ds xs).length = max ds.length xs.length
        ∧ (∀ i : Nat, xs.length ≤ i → (mergeList ds xs)[i]? = ds[i]?)) := by
  refine ⟨getPath_applyDefaults_scalar, ?_⟩
  intro ds xs
  refine ⟨mergeVals_arr_arr ds xs, length_mergeList ds xs, ?_⟩
  intro i hi
  rw [get?_mergeList]
  have hx : xs[i]? = none := by
    rw [List.getElem?_eq_none_iff]
    exact hi
  rw [hx]
  cases ds[i]? <;> simp

/-- Claim C1 counterexample: a document client `excludes` array `["x"]`
does not replace the two-element default `excludes` array; the resolved
value is `["x", "**/__tests__"]`. -/
theorem c1_counterexample :
    getPath (.obj [("client", .obj [("excludes", .arr [.str "x"])])])
      [.fld "client", .fld "excludes"] = some (.arr [.str "x"])
    ∧ getPath (applyDefaults (engineConfigOf none)
        (.obj [("client", .obj [("excludes", .arr [.str "x"])])]))
      [.fld "client", .fld "excludes"] =
        some (.arr [.str "x", .str "**/__tests__"])
    ∧ ¬((JValue.arr [.str "x", .str "**/__tests__"]) = .arr [.str "x"]) := by
  refine ⟨rfl, ?_, by simp⟩
  rw [apply_eval_c1]
  rfl

/-- Claim C1 witness: a document scalar (`tagName`) at depth two survives
the defaults pipeline, and the array clauses at `["a"]` against a
two-element default. -/
theorem c1_witness :
    getPath (.obj [("client", .obj [("tagName", .str "mine")])])
      [.fld "client", .fld "tagName"] = some (.str "mine")
    ∧ isScalar (.str "mine") = true
    ∧ getPath (applyDefaults (engineConfigOf none)
        (.obj [("client", .obj [("tagName", .str "mine")])]))
      [.fld "client", .fld "tagName"] = some (.str "mine")
    ∧ (mergeList [.str "d1", .str "d2"] [.str "a"])[1]? =
        [JValue.str "d1", .str "d2"][1]? := by
  refine ⟨rfl, rfl,
    c1_document_wins_amended.1 (engineConfigOf none) _
      [.fld "client", .fld "tagName"] (.str "mine") rfl rfl,
    (c1_document_wins_amended.2 [.str "d1", .str "d2"] [.str "a"]).2.2 1
      (by norm_num)⟩

/-- Claim C9 (confirmed).  The default-layering step of resolution (the
client, service, secret-engine and default-engine merges, in the source's
order and with the source's conditions) is idempotent: applying it twice
to any document gives the same resolved document as applying it once,
whether or not a secret engine key was read. -/
theorem c9_defaults_idempotent :
    ∀ (sk : Option String) (config : JValue),
      applyDefaults (engineConfigOf sk) (applyDefaults (engineConfigOf sk) config) =
        applyDefaults (engineConfigOf sk) config :=
  applyDefaults_idem

theorem resolveTypeAndName_error_shape (ty : Option ProjectType) (rn : Option String)
    (lc : Option ConfigResult) (e : ConfigError)
    (h : resolveTypeAndName ty rn lc = .error e) : e = .unresolvableType := by
  cases ty with
  | some t =>
    cases lc with
    | some r =>
      simp only [resolveTypeAndName] at h
      by_cases hc : truthy (getField r.config "client") = true
      · rw [if_pos hc] at h
        cases hs : getField (getField r.config "client") "service" <;>
          rw [hs] at h <;> simp at h
      · rw [if_neg hc] at h
        simp at h
    | none =>
      simp only [resolveTypeAndName] at h
      simp at h
  | none =>
    cases lc with
    | some r =>
      simp only [resolveTypeAndName] at h
      by_cases hc : truthy (getField r.config "client") = true
      · rw [if_pos hc] at h
        simp at h
      · rw [if_neg hc] at h
        by_cases hs : truthy (getField r.config "service") = true
        · rw [if_pos hs] at h
          simp at h
        · rw [if_neg hs] at h
          simp at h
          exact h.symm
    | none =>
      simp only [resolveTypeAndName] at h
      simp at h
      exact h.symm

/-- The characterization of `resolveTypeAndName`'s failure: no caller
type and no document with a truthy `client` or `service` block. -/
theorem resolveTypeAndName_error_iff (ty : Option ProjectType) (rn : Option String)
    (lc : Option ConfigResult) :
    resolveTypeAndName ty rn lc = .error .unresolvableType ↔
      ty = none ∧ (lc = none ∨ ∃ r, lc = some r ∧
        truthy (getField r.config "client") = false ∧
        truthy (getField r.config "service") = false) := by
  cases ty with
  | some t =>
    cases lc with
    | some r =>
      simp only [resolveTypeAndName]
      by_cases hc : truthy (getField r.config "client") = true
      · rw [if_pos hc]
        cases hs : getField (getField r.config "client") "service" <;> simp
      · rw [if_neg hc]
        simp
    | none =>
      simp only [resolveTypeAndName]
      simp
  | none =>
    cases lc with
    | some r =>
      simp only [resolveTypeAndName]
      by_cases hc : truthy (getField r.config "client") = true
      · rw [if_pos hc]
        simp [hc]
      · rw [if_neg hc]
        by_cases hs : truthy (getField r.config "service") = true
        · rw [if_pos hs]
          simp [hc, hs]
        · rw [if_neg hs]
          simp [Bool.eq_false_iff.mpr hc, Bool.eq_false_iff.mpr hs]
    | none =>
      simp only [resolveTypeAndName]
      simp

/-- Claim C4 (corrected).  Resolution fails exactly in three situations:
`requireConfig` with no document found; no resolvable type (no caller
type and no truthy `client`/`service` block in a found document); and a
found document flagged empty when the resolved name is falsy — the empty
error names the found document's path.  But an empty document is NOT
always a hard error: whenever a truthy name was resolved (caller name,
secret-derived name, or a client string specifier), the empty document is
silently replaced by a synthesized default config and resolution
succeeds. -/
theorem c4_failure_conditions_amended (st : LoadConfigSettings)
    (sr : Option ConfigResult) (dotenv : Option (List (String × String)))
    (cwd : String) :
    (loadConfig st sr dotenv cwd = .error .noConfigFound ↔
      st.requireConfig = true ∧ sr = none)
    ∧ (loadConfig st sr dotenv cwd = .error .unresolvableType ↔
      ¬(st.requireConfig = true ∧ sr = none) ∧
      st.type = none ∧ (sr = none ∨ ∃ r, sr = some r ∧
        truthy (getField r.config "client") = false ∧
        truthy (getField r.config "service") = false))
    ∧ (∀ p : String, loadConfig st sr dotenv cwd = .error (.emptyConfig p) ↔
      ¬(st.requireConfig = true ∧ sr = none) ∧
      ∃ (r : ConfigResult) (rt : ProjectType) (rn : Option String),
        sr = some r ∧
        resolveTypeAndName st.type
          (jsOr st.name ((engineKeyOf dotenv).bind
            (fun k => getServiceFromKey (some k)))) sr = .ok (rt, rn) ∧
        optTruthy rn = false ∧ r.isEmpty = true ∧ p = r.filepath) := by
  by_cases h1 : (st.requireConfig && sr.isNone) = true
  · have hreq : st.requireConfig = true := (Bool.and_eq_true _ _ |>.mp h1).1
    have hnone : sr = none := by
      have := (Bool.and_eq_true _ _ |>.mp h1).2
      simpa [Option.isNone_iff_eq_none] using this
    have hL : loadConfig st sr dotenv cwd = .error .noConfigFound := by
      simp only [loadConfig]
      rw [if_pos h1]
    rw [hL]
    refine ⟨?_, ?_, ?_⟩ <;> simp [hreq, hnone]
  · have hne : ¬(st.requireConfig = true ∧ sr = none) := by
      intro hc
      exact h1 (by simp [hc.1, hc.2])
    cases hR : resolveTypeAndName st.type
        (jsOr st.name ((engineKeyOf dotenv).bind
          (fun k => getServiceFromKey (some k)))) sr with
    | error e =>
      have he : e = .unresolvableType := resolveTypeAndName_error_shape _ _ _ _ hR
      subst he
      have hL : loadConfig st sr dotenv cwd = .error .unresolvableType := by
        simp only [loadConfig]
        rw [if_neg h1, hR]
      rw [hL]
      have hB := (resolveTypeAndName_error_iff st.type
        (jsOr st.name ((engineKeyOf dotenv).bind
          (fun k => getServiceFromKey (some k)))) sr).mp hR
      refine ⟨?_, ?_, ?_⟩
      · constructor
        · intro hc
          simp at hc
        · intro hc
          exact absurd hc hne
      · constructor
        · intro _
          exact ⟨hne, hB.1, hB.2⟩
        · intro _
          rfl
      · intro p
        constructor
        · intro hc
          simp at hc
        · rintro ⟨-, r, rt, rn, hsr, hok, -⟩
          simp at hok
    | ok pair =>
      obtain ⟨rt, rn⟩ := pair
      have hBno : ¬(st.type = none ∧ (sr = none ∨ ∃ r, sr = some r ∧
          truthy (getField r.config "client") = false ∧
          truthy (getField r.config "service") = false)) := by
        intro hB
        have h3 := (resolveTypeAndName_error_iff st.type
          (jsOr st.name ((engineKeyOf dotenv).bind
            (fun k => getServiceFromKey (some k)))) sr).mpr hB
        have h2 := hR.symm.trans h3
        simp at h2
      cases hsr : sr with
      | none =>
        subst hsr
        have hnotErr : ∀ e : ConfigError,
            ¬loadConfig st none dotenv cwd = .error e := by
          intro e hc
          rw [show loadConfig st none dotenv cwd = .ok (ApolloConfig.ofRaw
            (applyDefaults (engineConfigOf (engineKeyOf dotenv))
              (synthesizeConfig rt rn none))
            (some (resolvePath cwd (jsOrS st.configPath cwd)))) from by
              simp only [loadConfig]
              rw [if_neg h1, hR]
              rfl] at hc
          simp at hc
        refine ⟨?_, ?_, ?_⟩
        · constructor
          · intro hc
            exact absurd hc (hnotErr _)
          · intro hc
            exact absurd hc hne
        · constructor
          · intro hc
            exact absurd hc (hnotErr _)
          · intro hc
            exact absurd ⟨hc.2.1, hc.2.2⟩ hBno
        · intro p
          constructor
          · intro hc
            exact absurd hc (hnotErr _)
          · rintro ⟨-, r, rt', rn', hsr', -⟩
            simp at hsr'
      | some r =>
        subst hsr
        by_cases htr : optTruthy rn = true
        · have hnotErr : ∀ e : ConfigError,
              ¬loadConfig st (some r) dotenv cwd = .error e := by
            intro e hc
            rw [show loadConfig st (some r) dotenv cwd = .ok (ApolloConfig.ofRaw
              (applyDefaults (engineConfigOf (engineKeyOf dotenv))
                (synthesizeConfig rt rn (some r.config)))
              (some (resolvePath cwd (jsOrS st.configPath cwd)))) from by
                simp only [loadConfig]
                rw [if_neg h1, hR]
                simp [htr]] at hc
            simp at hc
          refine ⟨?_, ?_, ?_⟩
          · constructor
            · intro hc
              exact absurd hc (hnotErr _)
            · intro hc
              exact absurd hc hne
          · constructor
            · intro hc
              exact absurd hc (hnotErr _)
            · intro hc
              exact absurd ⟨hc.2.1, hc.2.2⟩ hBno
          · intro p
            constructor
            · intro hc
              exact absurd hc (hnotErr _)
            · rintro ⟨-, r', rt', rn', hsr', hok, hfalsy, -⟩
              injection hok with hok
              injection hok with h2a h2b
              rw [← h2b, htr] at hfalsy
              simp at hfalsy
        · by_cases hemp : r.isEmpty = true
          · have hL : loadConfig st (some r) dotenv cwd =
                .error (.emptyConfig r.filepath) := by
              simp only [loadConfig]
              rw [if_neg h1, hR]
              simp [htr, hemp]
            rw [hL]
            refine ⟨?_, ?_, ?_⟩
            · constructor
              · intro hc
                simp at hc
              · intro hc
                exact absurd hc hne
            · constructor
              · intro hc
                simp at hc
              · intro hc
                exact absurd ⟨hc.2.1, hc.2.2⟩ hBno
            · intro p
              constructor
              · intro hc
                injection hc with hc
                injection hc with hc
                exact ⟨hne, r, rt, rn, rfl, rfl, by simpa using htr, hemp,
                  hc.symm⟩
              · rintro ⟨-, r', rt', rn', hsr', hok, hfalsy, hemp', hp⟩
                injection hsr' with hsr'
                subst hsr'
                subst hp
                rfl
          · have hnotErr : ∀ e : ConfigError,
                ¬loadConfig st (some r) dotenv cwd = .error e := by
              intro e hc
              rw [show loadConfig st (some r) dotenv cwd = .ok (ApolloConfig.ofRaw
                (applyDefaults (engineConfigOf (engineKeyOf dotenv)) r.config)
                (some (resolvePath cwd r.filepath))) from by
                  simp only [loadConfig]
                  rw [if_neg h1, hR]
                  simp [htr, hemp]] at hc
              simp at hc
            refine ⟨?_, ?_, ?_⟩
            · constructor
              · intro hc
                exact absurd hc (hnotErr _)
              · intro hc
                exact absurd hc hne
            · constructor
              · intro hc
                exact absurd hc (hnotErr _)
              · intro hc
                exact absurd ⟨hc.2.1, hc.2.2⟩ hBno
            · intro p
              constructor
              · intro hc
                exact absurd hc (hnotErr _)
              · rintro ⟨-, r', rt', rn', hsr', hok, hfalsy, hemp', hp⟩
                injection hsr' with hsr'
                subst hsr'
                exact absurd hemp' hemp

/-- Claim C4 counterexample: a found document flagged empty is NOT always a
hard error — with a caller-supplied type and name, `loadConfig` silently
synthesizes a default document and succeeds. -/
theorem c4_counterexample :
    (⟨JValue.obj [], "apollo.config.js", true⟩ : ConfigResult).isEmpty = true
    ∧ resultOk (loadConfig { name := some "cart", type := some ProjectType.client }
        (some ⟨JValue.obj [], "apollo.config.js", true⟩) none "/w") = true := by
  refine ⟨rfl, ?_⟩
  have h0 : loadConfig { name := some "cart", type := some ProjectType.client }
      (some ⟨JValue.obj [], "apollo.config.js", true⟩) none "/w" =
      .ok (ApolloConfig.ofRaw
        (applyDefaults (engineConfigOf none)
          (synthesizeConfig ProjectType.client (some "cart")
            (some (JValue.obj []))))
        (some (resolvePath "/w" "/w"))) := rfl
  rw [h0]
  rfl

/-- The client-defaults pass on the C2 document (client block holding only
the string specifier), evaluated. -/
theorem merged_client_c2 :
    mergeVals DefaultClientConfig (JValue.obj [("service", .str "pay@beta")]) =
    JValue.obj
      [("includes", .arr [.str "src/**/*.\x7bts,tsx,js,jsx,graphql\x7d"]),
       ("excludes", .arr [.str "**/node_modules", .str "**/__tests__"]),
       ("tagName", .str "gql"),
       ("clientOnlyDirectives", .arr [.str "connection", .str "type"]),
       ("clientSchemaDirectives", .arr [.str "client", .str "rest"]),
       ("addTypename", .bool true),
       ("statsWindow", DefaultEngineStatsWindow),
       ("service", .str "pay@beta")] := by
  rw [show DefaultClientConfig = JValue.obj
    [("includes", .arr [.str "src/**/*.\x7bts,tsx,js,jsx,graphql\x7d"]),
     ("excludes", .arr [.str "**/node_modules", .str "**/__tests__"]),
     ("tagName", .str "gql"),
     ("clientOnlyDirectives", .arr [.str "connection", .str "type"]),
     ("clientSchemaDirectives", .arr [.str "client", .str "rest"]),
     ("addTypename", .bool true),
     ("statsWindow", DefaultEngineStatsWindow)] from rfl, mergeVals_obj_obj]
  simp [newFields_cons, hasKey_cons]

/-- The service-defaults pass on the C2 synthesized service block,
evaluated: the whole specifier string sits in `name` and the default
endpoint fills in. -/
theorem merged_service_c2 :
    mergeVals DefaultServiceConfig (JValue.obj
      [("includes", .arr [.str "src/**/*.\x7bts,tsx,js,jsx,graphql\x7d"]),
       ("excludes", .arr [.str "**/node_modules", .str "**/__tests__"]),
       ("name", .str "pay@beta")]) =
    JValue.obj
      [("includes", .arr [.str "src/**/*.\x7bts,tsx,js,jsx,graphql\x7d"]),
       ("excludes", .arr [.str "**/node_modules", .str "**/__tests__"]),
       ("endpoint", .obj [("url", .str "http://localhost:4000/graphql")]),
       ("name", .str "pay@beta")] := by
  rw [show DefaultServiceConfig = JValue.obj
    [("includes", .arr [.str "src/**/*.\x7bts,tsx,js,jsx,graphql\x7d"]),
     ("excludes", .arr [.str "**/node_modules", .str "**/__tests__"]),
     ("endpoint", .obj [("url", .str "http://localhost:4000/graphql")])]
    from rfl, mergeVals_obj_obj]
  simp [newFields_cons, hasKey_cons]

/-- The full defaults pipeline on the C2 service-type synthesized
document, evaluated. -/
theorem apply_eval_c2s :
    applyDefaults (engineConfigOf none)
      (.obj [("client", .obj [("service", .str "pay@beta")]),
             ("service", .obj
               [("includes", .arr [.str "src/**/*.\x7bts,tsx,js,jsx,graphql\x7d"]),
                ("excludes", .arr [.str "**/node_modules", .str "**/__tests__"]),
                ("name", .str "pay@beta")])]) =
    .obj [("engine", DefaultEngineConfig),
          ("service", JValue.obj
            [("includes", .arr [.str "src/**/*.\x7bts,tsx,js,jsx,graphql\x7d"]),
             ("excludes", .arr [.str "**/node_modules", .str "**/__tests__"]),
             ("endpoint", .obj [("url", .str "http://localhost:4000/graphql")]),
             ("name", .str "pay@beta")]),
          ("client", JValue.obj
            [("includes", .arr [.str "src/**/*.\x7bts,tsx,js,jsx,graphql\x7d"]),
             ("excludes", .arr [.str "**/node_modules", .str "**/__tests__"]),
             ("tagName", .str "gql"),
             ("clientOnlyDirectives", .arr [.str "connection", .str "type"]),
             ("clientSchemaDirectives", .arr [.str "client", .str "rest"]),
             ("addTypename", .bool true),
             ("statsWindow", DefaultEngineStatsWindow),
             ("service", .str "pay@beta")])] := by
  rw [applyDefaults_obj]
  rw [show clPart [("client", JValue.obj [("service", .str "pay@beta")]),
        ("service", .obj
          [("includes", .arr [.str "src/**/*.\x7bts,tsx,js,jsx,graphql\x7d"]),
           ("excludes", .arr [.str "**/node_modules", .str "**/__tests__"]),
           ("name", .str "pay@beta")])] =
      [("client", mergeVals DefaultClientConfig
          (JValue.obj [("service", .str "pay@beta")])),
       ("service", .obj
         [("includes", .arr [.str "src/**/*.\x7bts,tsx,js,jsx,graphql\x7d"]),
          ("excludes", .arr [.str "**/node_modules", .str "**/__tests__"]),
          ("name", .str "pay@beta")])]
    from by simp [clPart, truthy, rmKey], merged_client_c2]
  rw [show svPart [("client", JValue.obj
        [("includes", .arr [.str "src/**/*.\x7bts,tsx,js,jsx,graphql\x7d"]),
         ("excludes", .arr [.str "**/node_modules", .str "**/__tests__"]),
         ("tagName", .str "gql"),
         ("clientOnlyDirectives", .arr [.str "connection", .str "type"]),
         ("clientSchemaDirectives", .arr [.str "client", .str "rest"]),
         ("addTypename", .bool true),
         ("statsWindow", DefaultEngineStatsWindow),
         ("service", .str "pay@beta")]),
       ("service", .obj
         [("includes", .arr [.str "src/**/*.\x7bts,tsx,js,jsx,graphql\x7d"]),
          ("excludes", .arr [.str "**/node_modules", .str "**/__tests__"]),
          ("name", .str "pay@beta")])] =
      [("service", mergeVals DefaultServiceConfig (JValue.obj
         [("includes", .arr [.str "src/**/*.\x7bts,tsx,js,jsx,graphql\x7d"]),
          ("excludes", .arr [.str "**/node_modules", .str "**/__tests__"]),
          ("name", .str "pay@beta")])),
       ("client", JValue.obj
        [("includes", .arr [.str "src/**/*.\x7bts,tsx,js,jsx,graphql\x7d"]),
         ("excludes", .arr [.str "**/node_modules", .str "**/__tests__"]),
         ("tagName", .str "gql"),
         ("clientOnlyDirectives", .arr [.str "connection", .str "type"]),
         ("clientSchemaDirectives", .arr [.str "client", .str "rest"]),
         ("addTypename", .bool true),
         ("statsWindow", DefaultEngineStatsWindow),
         ("service", .str "pay@beta")])]
    from by simp [svPart, truthy, rmKey], merged_service_c2]
  rw [show engineMerged none (getFieldL [("service", JValue.obj
        [("includes", .arr [.str "src/**/*.\x7bts,tsx,js,jsx,graphql\x7d"]),
         ("excludes", .arr [.str "**/node_modules", .str "**/__tests__"]),
         ("endpoint", .obj [("url", .str "http://localhost:4000/graphql")]),
         ("name", .str "pay@beta")]),
       ("client", JValue.obj
        [("includes", .arr [.str "src/**/*.\x7bts,tsx,js,jsx,graphql\x7d"]),
         ("excludes", .arr [.str "**/node_modules", .str "**/__tests__"]),
         ("tagName", .str "gql"),
         ("clientOnlyDirectives", .arr [.str "connection", .str "type"]),
         ("clientSchemaDirectives", .arr [.str "client", .str "rest"]),
         ("addTypename", .bool true),
         ("statsWindow", DefaultEngineStatsWindow),
         ("service", .str "pay@beta")])] "engine") = DefaultEngineConfig
    from by simp [engineMerged]]
  rfl

/-- The client-defaults pass on the C2 client-type synthesized client
block, evaluated. -/
theorem merged_client_c2c :
    mergeVals DefaultClientConfig (JValue.obj
      [("includes", .arr [.str "src/**/*.\x7bts,tsx,js,jsx,graphql\x7d"]),
       ("excludes", .arr [.str "**/node_modules", .str "**/__tests__"]),
       ("service", .str "pay@beta")]) =
    JValue.obj
      [("includes", .arr [.str "src/**/*.\x7bts,tsx,js,jsx,graphql\x7d"]),
       ("excludes", .arr [.str "**/node_modules", .str "**/__tests__"]),
       ("tagName", .str "gql"),
       ("clientOnlyDirectives", .arr [.str "connection", .str "type"]),
       ("clientSchemaDirectives", .arr [.str "client", .str "rest"]),
       ("addTypename", .bool true),
       ("statsWindow", DefaultEngineStatsWindow),
       ("service", .str "pay@beta")] := by
  rw [show DefaultClientConfig = JValue.obj
    [("includes", .arr [.str "src/**/*.\x7bts,tsx,js,jsx,graphql\x7d"]),
     ("excludes", .arr [.str "**/node_modules", .str "**/__tests__"]),
     ("tagName", .str "gql"),
     ("clientOnlyDirectives", .arr [.str "connection", .str "type"]),
     ("clientSchemaDirectives", .arr [.str "client", .str "rest"]),
     ("addTypename", .bool true),
     ("statsWindow", DefaultEngineStatsWindow)] from rfl, mergeVals_obj_obj]
  simp [newFields_cons, hasKey_cons]

/-- The full defaults pipeline on the C2 client-type synthesized document,
evaluated. -/
theorem apply_eval_c2c :
    applyDefaults (engineConfigOf none)
      (.obj [("client", .obj
        [("includes", .arr [.str "src/**/*.\x7bts,tsx,js,jsx,graphql\x7d"]),
         ("excludes", .arr [.str "**/node_modules", .str "**/__tests__"]),
         ("service", .str "pay@beta")])]) =
    .obj [("engine", DefaultEngineConfig),
          ("client", JValue.obj
            [("includes", .arr [.str "src/**/*.\x7bts,tsx,js,jsx,graphql\x7d"]),
             ("excludes", .arr [.str "**/node_modules", .str "**/__tests__"]),
             ("tagName", .str "gql"),
             ("clientOnlyDirectives", .arr [.str "connection", .str "type"]),
             ("clientSchemaDirectives", .arr [.str "client", .str "rest"]),
             ("addTypename", .bool true),
             ("statsWindow", DefaultEngineStatsWindow),
             ("service", .str "pay@beta")])] := by
  rw [applyDefaults_obj]
  rw [show clPart [("client", JValue.obj
        [("includes", .arr [.str "src/**/*.\x7bts,tsx,js,jsx,graphql\x7d"]),
         ("excludes", .arr [.str "**/node_modules", .str "**/__tests__"]),
         ("service", .str "pay@beta")])] =
      [("client", mergeVals DefaultClientConfig (JValue.obj
        [("includes", .arr [.str "src/**/*.\x7bts,tsx,js,jsx,graphql\x7d"]),
         ("excludes", .arr [.str "**/node_modules", .str "**/__tests__"]),
         ("service", .str "pay@beta")]))]
    from by simp [clPart, truthy, rmKey], merged_client_c2c]
  rw [show svPart [("client", JValue.obj
        [("includes", .arr [.str "src/**/*.\x7bts,tsx,js,jsx,graphql\x7d"]),
         ("excludes", .arr [.str "**/node_modules", .str "**/__tests__"]),
         ("tagName", .str "gql"),
         ("clientOnlyDirectives", .arr [.str "connection", .str "type"]),
         ("clientSchemaDirectives", .arr [.str "client", .str "rest"]),
         ("addTypename", .bool true),
         ("statsWindow", DefaultEngineStatsWindow),
         ("service", .str "pay@beta")])] =
      [("client", JValue.obj
        [("includes", .arr [.str "src/**/*.\x7bts,tsx,js,jsx,graphql\x7d"]),
         ("excludes", .arr [.str "**/node_modules", .str "**/__tests__"]),
         ("tagName", .str "gql"),
         ("clientOnlyDirectives", .arr [.str "connection", .str "type"]),
         ("clientSchemaDirectives", .arr [.str "client", .str "rest"]),
         ("addTypename", .bool true),
         ("statsWindow", DefaultEngineStatsWindow),
         ("service", .str "pay@beta")])]
    from by simp [svPart, truthy, getFieldL_cons]]
  rw [show engineMerged none (getFieldL [("client", JValue.obj
        [("includes", .arr [.str "src/**/*.\x7bts,tsx,js,jsx,graphql\x7d"]),
         ("excludes", .arr [.str "**/node_modules", .str "**/__tests__"]),
         ("tagName", .str "gql"),
         ("clientOnlyDirectives", .arr [.str "connection", .str "type"]),
         ("clientSchemaDirectives", .arr [.str "client", .str "rest"]),
         ("addTypename", .bool true),
         ("statsWindow", DefaultEngineStatsWindow),
         ("service", .str "pay@beta")])] "engine") = DefaultEngineConfig
    from by simp [engineMerged]]
  rfl

/-- Claim C2 (corrected).  When the caller supplies an explicit type and
the loaded document has a truthy client block whose `service` field is a
string specifier, resolution honors the supplied type and the WHOLE
specifier string — not its id part — overrides every other name source
(caller-supplied name, secret-derived name) for this pass: it is written
verbatim into the synthesized block of the resolved type.  For a client
project the exposed `name` then re-parses the stored specifier down to
its id, but for a service project the full `"id@tag"` string becomes the
resolved name. -/
theorem c2_specifier_precedence_amended :
    (∀ (t : ProjectType) (rn : Option String) (r : ConfigResult) (s : String),
      truthy (getField r.config "client") = true →
      getField (getField r.config "client") "service" = .str s →
      resolveTypeAndName (some t) rn (some r) = .ok (t, some s))
    ∧ resultName (loadConfig { name := some "billing", type := some ProjectType.service }
        (some ⟨.obj [("client", .obj [("service", .str "pay@beta")])],
          "apollo.config.js", false⟩) none "/w") = some "pay@beta"
    ∧ resultName (loadConfig { name := some "billing", type := some ProjectType.client }
        (some ⟨.obj [("client", .obj [("service", .str "pay@beta")])],
          "apollo.config.js", false⟩) none "/w") = some "pay" := by
  refine ⟨?_, ?_, ?_⟩
  · intro t rn r s hcl hsv
    simp only [resolveTypeAndName]
    rw [if_pos hcl, hsv]
  · have h0 : loadConfig { name := some "billing", type := some ProjectType.service }
        (some ⟨.obj [("client", .obj [("service", .str "pay@beta")])],
          "apollo.config.js", false⟩) none "/w" =
        .ok (ApolloConfig.ofRaw
          (applyDefaults (engineConfigOf none)
            (.obj [("client", .obj [("service", .str "pay@beta")]),
                   ("service", .obj
                     [("includes",
                       .arr [.str "src/**/*.\x7bts,tsx,js,jsx,graphql\x7d"]),
                      ("excludes",
                       .arr [.str "**/node_modules", .str "**/__tests__"]),
                      ("name", .str "pay@beta")])]))
          (some (resolvePath "/w" "/w"))) := rfl
    rw [h0, apply_eval_c2s]
    rfl
  · have h0 : loadConfig { name := some "billing", type := some ProjectType.client }
        (some ⟨.obj [("client", .obj [("service", .str "pay@beta")])],
          "apollo.config.js", false⟩) none "/w" =
        .ok (ApolloConfig.ofRaw
          (applyDefaults (engineConfigOf none)
            (.obj [("client", .obj
              [("includes",
                .arr [.str "src/**/*.\x7bts,tsx,js,jsx,graphql\x7d"]),
               ("excludes",
                .arr [.str "**/node_modules", .str "**/__tests__"]),
               ("service", .str "pay@beta")])]))
          (some (resolvePath "/w" "/w"))) := rfl
    rw [h0, apply_eval_c2c]
    rfl

/-- Claim C2 counterexample: with an explicit service type and a client
string specifier `"pay@beta"`, the resolved name is the whole specifier
string, not its parsed id part `"pay"` as the claim states. -/
theorem c2_counterexample :
    (parseServiceSpecificer "pay@beta").1 = "pay"
    ∧ resultName (loadConfig { name := some "billing", type := some ProjectType.service }
        (some ⟨.obj [("client", .obj [("service", .str "pay@beta")])],
          "apollo.config.js", false⟩) none "/w") = some "pay@beta"
    ∧ ¬resultName (loadConfig { name := some "billing", type := some ProjectType.service }
        (some ⟨.obj [("client", .obj [("service", .str "pay@beta")])],
          "apollo.config.js", false⟩) none "/w") = some "pay" := by
  have h0 : loadConfig { name := some "billing", type := some ProjectType.service }
      (some ⟨.obj [("client", .obj [("service", .str "pay@beta")])],
        "apollo.config.js", false⟩) none "/w" =
      .ok (ApolloConfig.ofRaw
        (applyDefaults (engineConfigOf none)
          (.obj [("client", .obj [("service", .str "pay@beta")]),
                 ("service", .obj
                   [("includes",
                     .arr [.str "src/**/*.\x7bts,tsx,js,jsx,graphql\x7d"]),
                    ("excludes",
                     .arr [.str "**/node_modules", .str "**/__tests__"]),
                    ("name", .str "pay@beta")])]))
        (some (resolvePath "/w" "/w"))) := rfl
  refine ⟨rfl, ?_, ?_⟩
  · rw [h0, apply_eval_c2s]
    rfl
  · rw [h0, apply_eval_c2s]
    intro hc
    simp [resultName, ApolloConfig.ofRaw, getServiceName, truthy, jToName] at hc

/-- Claim C2 witness: the general precedence clause at a concrete input. -/
theorem c2_witness :
    resolveTypeAndName (some ProjectType.service) (some "billing")
      (some ⟨.obj [("client", .obj [("service", .str "pay@beta")])],
        "apollo.config.js", false⟩) =
    .ok (ProjectType.service, some "pay@beta") :=
  c2_specifier_precedence_amended.1 ProjectType.service (some "billing")
    ⟨.obj [("client", .obj [("service", .str "pay@beta")])],
      "apollo.config.js", false⟩ "pay@beta" rfl rfl

/-- The engine layers of the C3 scenario, evaluated: the document's
`apiKey` survives on top of the secret-derived key, defaults fill the
rest. -/
theorem engine_eval_c3 :
    engineMerged (some "from-secret") (JValue.obj [("apiKey", .str "from-doc")]) =
    JValue.obj
      [("endpoint", .str "https://engine-graphql.apollographql.com/api/graphql"),
       ("frontend", .str "https://engine.apollographql.com"),
       ("apiKey", .str "from-doc")] := by
  simp only [engineMerged]
  rw [mergeVals_obj_obj]
  rw [show DefaultEngineConfig = JValue.obj
    [("endpoint", .str "https://engine-graphql.apollographql.com/api/graphql"),
     ("frontend", .str "https://engine.apollographql.com")] from rfl,
    mergeVals_obj_obj]
  simp [newFields_cons, hasKey_cons]

/-- The full defaults pipeline of the C3 scenario, evaluated. -/
theorem apply_eval_c3 :
    applyDefaults (engineConfigOf (some "from-secret"))
      (.obj [("service", .obj []),
             ("engine", .obj [("apiKey", .str "from-doc")])]) =
    .obj [("engine", JValue.obj
            [("endpoint",
              .str "https://engine-graphql.apollographql.com/api/graphql"),
             ("frontend", .str "https://engine.apollographql.com"),
             ("apiKey", .str "from-doc")]),
          ("service", JValue.obj
            [("includes", .arr [.str "src/**/*.\x7bts,tsx,js,jsx,graphql\x7d"]),
             ("excludes", .arr [.str "**/node_modules", .str "**/__tests__"]),
             ("endpoint", .obj [("url", .str "http://localhost:4000/graphql")])])] := by
  rw [applyDefaults_obj]
  rw [show clPart [("service", JValue.obj []),
        ("engine", JValue.obj [("apiKey", .str "from-doc")])] =
      [("service", JValue.obj []),
       ("engine", JValue.obj [("apiKey", .str "from-doc")])]
    from by simp [clPart, truthy]]
  rw [show svPart [("service", JValue.obj []),
        ("engine", JValue.obj [("apiKey", .str "from-doc")])] =
      [("service", mergeVals DefaultServiceConfig (JValue.obj [])),
       ("engine", JValue.obj [("apiKey", .str "from-doc")])]
    from by simp [svPart, truthy, rmKey]]
  rw [show mergeVals DefaultServiceConfig (JValue.obj []) = JValue.obj
      [("includes", .arr [.str "src/**/*.\x7bts,tsx,js,jsx,graphql\x7d"]),
       ("excludes", .arr [.str "**/node_modules", .str "**/__tests__"]),
       ("endpoint", .obj [("url", .str "http://localhost:4000/graphql")])]
    from by
      rw [show DefaultServiceConfig = JValue.obj
        [("includes", .arr [.str "src/**/*.\x7bts,tsx,js,jsx,graphql\x7d"]),
         ("excludes", .arr [.str "**/node_modules", .str "**/__tests__"]),
         ("endpoint", .obj [("url", .str "http://localhost:4000/graphql")])]
        from rfl, mergeVals_obj_obj]
      simp]
  rw [show getFieldL [("service", JValue.obj
        [("includes", .arr [.str "src/**/*.\x7bts,tsx,js,jsx,graphql\x7d"]),
         ("excludes", .arr [.str "**/node_modules", .str "**/__tests__"]),
         ("endpoint", .obj [("url", .str "http://localhost:4000/graphql")])]),
        ("engine", JValue.obj [("apiKey", .str "from-doc")])] "engine" =
      JValue.obj [("apiKey", .str "from-doc")] from rfl]
  rw [engine_eval_c3]
  rfl

/-- Claim C3 (corrected).  The layering order is defaults ≤ secret ≤
document, not defaults ≤ document ≤ secret: the engine block of the
resolved configuration is the document's engine value merged OVER the
secret-derived `apiKey` object, with the built-in engine defaults
underneath.  So the secret key only fills an `apiKey` the document leaves
absent; an `apiKey` the document defines beats the secret, and default
endpoint/frontend values fill engine keys absent from both. -/
theorem c3_engine_layering_amended :
    (∀ (sk : Option String) (fs : List (String × JValue)),
      getField (applyDefaults (engineConfigOf sk) (.obj fs)) "engine" =
        engineMerged sk (getFieldL (svPart (clPart fs)) "engine"))
    ∧ (∀ (k : String) (es : List (String × JValue)) (a : String),
      lookupField es "apiKey" = some (.str a) →
      getField (engineMerged (some k) (.obj es)) "apiKey" = .str a)
    ∧ (∀ (k : String) (es : List (String × JValue)),
      lookupField es "apiKey" = none →
      getField (engineMerged (some k) (.obj es)) "apiKey" = .str k)
    ∧ (∀ (k : String) (es : List (String × JValue)),
      lookupField es "endpoint" = none →
      getField (engineMerged (some k) (.obj es)) "endpoint" =
        .str "https://engine-graphql.apollographql.com/api/graphql")
    ∧ resultEngineApiKey (loadConfig { type := some ProjectType.service }
        (some ⟨.obj [("service", .obj []),
                     ("engine", .obj [("apiKey", .str "from-doc")])],
          "apollo.config.js", false⟩)
        (some [("ENGINE_API_KEY", "from-secret")]) "/w") = some "from-doc" := by
  refine ⟨?_, ?_, ?_, ?_, ?_⟩
  · intro sk fs
    rw [applyDefaults_obj]
    simp
  · intro k es a ha
    simp only [engineMerged]
    rw [mergeVals_singleton]
    rw [show DefaultEngineConfig = JValue.obj
      [("endpoint", .str "https://engine-graphql.apollographql.com/api/graphql"),
       ("frontend", .str "https://engine.apollographql.com")] from rfl,
      mergeVals_obj_obj, getField_obj, getFieldL_merged]
    simp [getFieldL_eq, ha]
  · intro k es ha
    simp only [engineMerged]
    rw [mergeVals_singleton]
    rw [show DefaultEngineConfig = JValue.obj
      [("endpoint", .str "https://engine-graphql.apollographql.com/api/graphql"),
       ("frontend", .str "https://engine.apollographql.com")] from rfl,
      mergeVals_obj_obj, getField_obj, getFieldL_merged]
    simp [getFieldL_eq, ha]
  · intro k es ha
    simp only [engineMerged]
    rw [mergeVals_singleton]
    rw [show DefaultEngineConfig = JValue.obj
      [("endpoint", .str "https://engine-graphql.apollographql.com/api/graphql"),
       ("frontend", .str "https://engine.apollographql.com")] from rfl,
      mergeVals_obj_obj, getField_obj, getFieldL_merged]
    have h2 : lookupField (rmKey "apiKey" es) "endpoint" = none := by
      rw [lookupField_rmKey_ne "endpoint" "apiKey" es (by decide), ha]
    simp [getFieldL_eq, h2]
  · have h0 : loadConfig { type := some ProjectType.service }
        (some ⟨.obj [("service", .obj []),
                     ("engine", .obj [("apiKey", .str "from-doc")])],
          "apollo.config.js", false⟩)
        (some [("ENGINE_API_KEY", "from-secret")]) "/w" =
        .ok (ApolloConfig.ofRaw
          (applyDefaults (engineConfigOf (some "from-secret"))
            (.obj [("service", .obj []),
                   ("engine", .obj [("apiKey", .str "from-doc")])]))
          (some (resolvePath "/w" "apollo.config.js"))) := rfl
    rw [h0, apply_eval_c3]
    rfl

/-- Claim C3 counterexample: the document's `engine.apiKey` survives into
the resolved configuration; the secret-derived key does NOT take
precedence over the document's engine block. -/
theorem c3_counterexample :
    resultEngineApiKey (loadConfig { type := some ProjectType.service }
      (some ⟨.obj [("service", .obj []),
                   ("engine", .obj [("apiKey", .str "from-doc")])],
        "apollo.config.js", false⟩)
      (some [("ENGINE_API_KEY", "from-secret")]) "/w") = some "from-doc"
    ∧ ¬resultEngineApiKey (loadConfig { type := some ProjectType.service }
      (some ⟨.obj [("service", .obj []),
                   ("engine", .obj [("apiKey", .str "from-doc")])],
        "apollo.config.js", false⟩)
      (some [("ENGINE_API_KEY", "from-secret")]) "/w") = some "from-secret" := by
  have h0 : loadConfig { type := some ProjectType.service }
      (some ⟨.obj [("service", .obj []),
                   ("engine", .obj [("apiKey", .str "from-doc")])],
        "apollo.config.js", false⟩)
      (some [("ENGINE_API_KEY", "from-secret")]) "/w" =
      .ok (ApolloConfig.ofRaw
        (applyDefaults (engineConfigOf (some "from-secret"))
          (.obj [("service", .obj []),
                 ("engine", .obj [("apiKey", .str "from-doc")])]))
        (some (resolvePath "/w" "apollo.config.js"))) := rfl
  refine ⟨?_, ?_⟩
  · rw [h0, apply_eval_c3]
    rfl
  · rw [h0, apply_eval_c3]
    intro hc
    simp [resultEngineApiKey, ApolloConfig.ofRaw, jToName] at hc

/-- Claim C3 witness: the document-wins and fill clauses at concrete
inputs. -/
theorem c3_witness :
    getField (engineMerged (some "sec") (.obj [("apiKey", .str "doc")]))
      "apiKey" = .str "doc"
    ∧ getField (engineMerged (some "sec") (.obj [])) "apiKey" = .str "sec" :=
  ⟨c3_engine_layering_amended.2.1 "sec" [("apiKey", .str "doc")] "doc" rfl,
   c3_engine_layering_amended.2.2.1 "sec" [] rfl⟩
